import Mathlib

/-!
Verification development for the chat-message ingestion and deduplication
pipeline (chatlog subsystem): a shallow embedding in Lean 4 of the
idempotency/checkpoint store (`chatlog_state_store.py`), the backfill poller
(`chatlog_backfill.py`), the target policy store (`chatlog_targets.py`) and
the webhook/evaluator/health code in `app.py`, together with theorems about
the spec's testable properties.

Modelling conventions:
* Python `str` is `String`, `int` is `Int`, `None`-able values are `Option`.
* Python ordering on `str` (`<`, `>`) is code-point lexicographic, embedded
  as the executable comparison `pyCharListLt` on character lists.
* `datetime.fromisoformat` followed by the UTC normalization in
  `_parse_iso` is modelled by `parseIso`, which maps a string of the
  (extended) ISO-8601 shape `YYYY-MM-DD[<sep>HH[:MM[:SS[.ffffff]]][offset]]`
  to the instant it denotes, measured in microseconds from 0001-01-01 UTC.
  Aware datetimes compare by instant, and naive ones are reinterpreted as
  UTC, so Python's datetime comparison is integer comparison of this value.
* The sqlite tables are modelled as in-memory lists: `processed_messages`
  as an append-only list of records, `checkpoints` as an association list
  keyed by talker.  `INSERT OR IGNORE` / upsert become the corresponding
  pure list operations.
-/

/-- Numeric value of a decimal digit character. -/
def digitVal (c : Char) : Nat := c.toNat - 48

/-- Read exactly two decimal digits, returning the value and the rest. -/
def read2 : List Char → Option (Nat × List Char)
  | a :: b :: rest =>
      if a.isDigit && b.isDigit then some (10 * digitVal a + digitVal b, rest) else none
  | _ => none

/-- Read exactly four decimal digits, returning the value and the rest. -/
def read4 (cs : List Char) : Option (Nat × List Char) :=
  match read2 cs with
  | some (hi, rest) =>
      match read2 rest with
      | some (lo, rest2) => some (100 * hi + lo, rest2)
      | none => none
  | none => none

/-- Gregorian leap-year test, as in Python's `calendar`/`datetime`. -/
def isLeapYear (y : Nat) : Bool := y % 4 == 0 && (y % 100 != 0 || y % 400 == 0)

/-- Days in a month of a given year (month is 1-based). -/
def daysInMonth (y m : Nat) : Nat :=
  [31, if isLeapYear y then 29 else 28, 31, 30, 31, 30, 31, 31, 30, 31, 30, 31].getD (m - 1) 0

/-- Days in all years strictly before year `y` (proleptic Gregorian). -/
def daysBeforeYear (y : Nat) : Nat :=
  let py := y - 1
  py * 365 + py / 4 - py / 100 + py / 400

/-- Days in the months of year `y` strictly before month `m` (1-based). -/
def daysBeforeMonth (y m : Nat) : Nat :=
  (List.range (m - 1)).foldl (fun a i => a + daysInMonth y (i + 1)) 0

/-- Proleptic Gregorian ordinal of a date, with 0001-01-01 mapped to 1,
exactly as Python's `date.toordinal`. -/
def toOrdinal (y m d : Nat) : Nat := daysBeforeYear y + daysBeforeMonth y m + d

/-- Parse `YYYY-MM-DD` (with range validation as in `datetime`), returning
the fields and the unconsumed characters. -/
def parseDate (cs : List Char) : Option (Nat × Nat × Nat × List Char) :=
  match read4 cs with
  | some (y, '-' :: r1) =>
      match read2 r1 with
      | some (mo, '-' :: r2) =>
          match read2 r2 with
          | some (d, rest) =>
              if 1 ≤ y && 1 ≤ mo && mo ≤ 12 && 1 ≤ d && d ≤ daysInMonth y mo then
                some (y, mo, d, rest)
              else none
          | none => none
      | _ => none
  | _ => none

/-- Microseconds denoted by a fractional-seconds digit string (truncated to
six digits, right-padded with zeros), as in `fromisoformat`. -/
def fracMicros (ds : List Char) : Nat :=
  let six := (ds.take 6) ++ List.replicate (6 - ds.length) '0'
  six.foldl (fun a c => a * 10 + digitVal c) 0

/-- Parse the time-of-day part `HH[:MM[:SS[.ffffff]]]`, returning
(hour, minute, second, microsecond) and the unconsumed characters. -/
def parseTime (cs : List Char) : Option (Nat × Nat × Nat × Nat × List Char) :=
  match read2 cs with
  | none => none
  | some (h, rest) =>
      if h ≤ 23 then
        match rest with
        | ':' :: r2 =>
            match read2 r2 with
            | none => none
            | some (mi, rest2) =>
                if mi ≤ 59 then
                  match rest2 with
                  | ':' :: r3 =>
                      match read2 r3 with
                      | none => none
                      | some (s, rest3) =>
                          if s ≤ 59 then
                            match rest3 with
                            | '.' :: r4 =>
                                let ds := r4.takeWhile Char.isDigit
                                if ds.isEmpty then none
                                else some (h, mi, s, fracMicros ds, r4.dropWhile Char.isDigit)
                            | ',' :: r4 =>
                                let ds := r4.takeWhile Char.isDigit
                                if ds.isEmpty then none
                                else some (h, mi, s, fracMicros ds, r4.dropWhile Char.isDigit)
                            | _ => some (h, mi, s, 0, rest3)
                          else none
                  | _ => some (h, mi, 0, 0, rest2)
                else none
        | _ => some (h, 0, 0, 0, rest)
      else none

/-- Parse a UTC offset suffix: empty (naive), `Z`, or `±HH:MM`.  Returns the
offset in microseconds; a naive time behaves as UTC because `_parse_iso`
replaces a missing tzinfo with UTC. -/
def parseOffset : List Char → Option Int
  | [] => some 0
  | ['Z'] => some 0
  | '+' :: r =>
      match r with
      | [a, b, ':', c, d] =>
          if a.isDigit && b.isDigit && c.isDigit && d.isDigit then
            let hh := 10 * digitVal a + digitVal b
            let mm := 10 * digitVal c + digitVal d
            if hh ≤ 23 && mm ≤ 59 then some (((hh * 3600 + mm * 60) * 1000000 : Nat)) else none
          else none
      | _ => none
  | '-' :: r =>
      match r with
      | [a, b, ':', c, d] =>
          if a.isDigit && b.isDigit && c.isDigit && d.isDigit then
            let hh := 10 * digitVal a + digitVal b
            let mm := 10 * digitVal c + digitVal d
            if hh ≤ 23 && mm ≤ 59 then some (-((hh * 3600 + mm * 60) * 1000000 : Nat) : Int) else none
          else none
      | _ => none
  | _ => none

/-- Instant (microseconds from 0001-01-01 00:00:00 UTC) of a civil
date-time with the given UTC offset. -/
def instantOf (y mo d h mi s micro : Nat) (offset : Int) : Int :=
  ((toOrdinal y mo d * 86400 + h * 3600 + mi * 60 + s) * 1000000 + micro : Nat) - offset

/-- Model of `datetime.fromisoformat` (Python 3.11 behaviour on the shapes
this system produces: a date, optionally followed by a single separator
character and a time with optional fractional seconds and optional
`Z`/`±HH:MM` offset) composed with `_parse_iso`'s replace-missing-tz-by-UTC.
Returns the denoted instant, or `none` when parsing raises `ValueError`. -/
def parseIsoString (s : String) : Option Int :=
  match parseDate s.data with
  | none => none
  | some (y, mo, d, rest) =>
      match rest with
      | [] => some (instantOf y mo d 0 0 0 0 0)
      | _sep :: timeCs =>
          match parseTime timeCs with
          | none => none
          | some (h, mi, sec, micro, rest2) =>
              match parseOffset rest2 with
              | none => none
              | some off => some (instantOf y mo d h mi sec micro off)

/-- Model of `_parse_iso` in `chatlog_state_store.py`: `None` and the empty
string give `None`; otherwise parse, with parse failure giving `None`. -/
def parseIso : Option String → Option Int
  | none => none
  | some s => if s = "" then none else parseIsoString s

/-- One row of the `processed_messages` table. -/
structure ProcessedRecord where
  idempotency_key : String
  talker : String
  message_time : Option String
  deriving DecidableEq, Repr

/-- The `(last_processed_time, last_processed_seq)` payload of one row of
the `checkpoints` table. -/
structure Checkpoint where
  last_processed_time : Option String
  last_processed_seq : Option Int
  deriving DecidableEq, Repr

/-- In-memory model of `ChatlogStateStore`'s sqlite database: the
`processed_messages` table (append-only, unique by key) and the
`checkpoints` table (association list keyed by talker). -/
structure StateStore where
  processed : List ProcessedRecord
  checkpoints : List (String × Checkpoint)
  deriving DecidableEq, Repr

/-- The empty database, as created by `_ensure_schema` on a fresh file. -/
def StateStore.empty : StateStore := ⟨[], []⟩

/-- Model of `ChatlogStateStore.is_processed`: membership of a key in
`processed_messages`. -/
def isProcessed (st : StateStore) (key : String) : Bool :=
  st.processed.any (fun r => r.idempotency_key == key)

/-- Model of `ChatlogStateStore.mark_processed`: `INSERT OR IGNORE` of the
record, returning whether this call inserted it. -/
def mark_processed (st : StateStore) (key talker : String) (message_time : Option String) :
    StateStore × Bool :=
  if isProcessed st key then (st, false)
  else ({ st with processed := st.processed ++ [⟨key, talker, message_time⟩] }, true)

/-- Association-list lookup for the `checkpoints` table. -/
def lookupCheckpoint : List (String × Checkpoint) → String → Option Checkpoint
  | [], _ => none
  | (k, v) :: rest, t => if k == t then some v else lookupCheckpoint rest t

/-- Model of `ChatlogStateStore.load_checkpoint`: the stored pair, or
`(None, None)` when no row exists. -/
def load_checkpoint (st : StateStore) (talker : String) : Option String × Option Int :=
  match lookupCheckpoint st.checkpoints talker with
  | none => (none, none)
  | some c => (c.last_processed_time, c.last_processed_seq)

/-- Sequence number used for comparison, treating an absent seq as `-1`
(`current_seq if current_seq is not None else -1`). -/
def effSeq : Option Int → Int
  | none => -1
  | some n => n

/-- Python string truthiness for an optional string: present and non-empty. -/
def pyTruthy : Option String → Bool
  | none => false
  | some s => s ≠ ""

/-- Python `<` on two lists of characters: code-point lexicographic. -/
def pyCharListLt : List Char → List Char → Bool
  | [], [] => false
  | [], _ :: _ => true
  | _ :: _, [] => false
  | a :: as, b :: bs => a.toNat < b.toNat || (a.toNat == b.toNat && pyCharListLt as bs)

/-- Python `a < b` on two strings (code-point lexicographic). -/
def pyStrLt (a b : String) : Bool := pyCharListLt a.data b.data

/-- Python `a > b` on two strings (code-point lexicographic). -/
def pyStrGt (a b : String) : Bool := pyStrLt b a

/-- Model of the `should_update` decision inside
`ChatlogStateStore.advance_checkpoint` (lines 97-111 of
`chatlog_state_store.py`), deciding whether the candidate
`(message_time, message_seq)` replaces the stored
`(current_time, current_seq)`. -/
def shouldUpdate (current_time : Option String) (current_seq : Option Int)
    (message_time : Option String) (message_seq : Option Int) : Bool :=
  match current_time with
  | none => true
  | some ct =>
      match parseIso (some ct), parseIso message_time with
      | some oldDt, some newDt =>
          if oldDt < newDt then true
          else if newDt == oldDt then decide (effSeq current_seq < effSeq message_seq)
          else false
      | _, _ =>
          match message_time with
          | some mt => mt ≠ "" && pyStrGt mt ct
          | none => false

/-- Upsert into the `checkpoints` association list
(`INSERT ... ON CONFLICT(talker) DO UPDATE`). -/
def upsertCheckpoint : List (String × Checkpoint) → String → Checkpoint →
    List (String × Checkpoint)
  | [], t, c => [(t, c)]
  | (k, v) :: rest, t, c =>
      if k == t then (t, c) :: rest else (k, v) :: upsertCheckpoint rest t c

/-- Model of `ChatlogStateStore.advance_checkpoint`: read the stored pair,
decide `should_update`, and upsert the candidate only when it is newer. -/
def advance_checkpoint (st : StateStore) (talker : String)
    (message_time : Option String) (message_seq : Option Int) : StateStore :=
  let cur := load_checkpoint st talker
  if shouldUpdate cur.1 cur.2 message_time message_seq then
    { st with checkpoints := upsertCheckpoint st.checkpoints talker ⟨message_time, message_seq⟩ }
  else st

/-- Truncate to an unsigned 32-bit word. -/
def w32 (n : Nat) : Nat := n % 4294967296

/-- Rotate a 32-bit word right by `k` bits. -/
def rotr32 (x k : Nat) : Nat := w32 ((x >>> k) ||| (x <<< (32 - k)))

/-- Bitwise complement of a 32-bit word. -/
def not32 (x : Nat) : Nat := x ^^^ 4294967295

/-- SHA-256 round constants. -/
def sha256K : List Nat :=
  [1116352408, 1899447441, 3049323471, 3921009573, 961987163, 1508970993,
   2453635748, 2870763221, 3624381080, 310598401, 607225278, 1426881987,
   1925078388, 2162078206, 2614888103, 3248222580, 3835390401, 4022224774,
   264347078, 604807628, 770255983, 1249150122, 1555081692, 1996064986,
   2554220882, 2821834349, 2952996808, 3210313671, 3336571891, 3584528711,
   113926993, 338241895, 666307205, 773529912, 1294757372, 1396182291,
   1695183700, 1986661051, 2177026350, 2456956037, 2730485921, 2820302411,
   3259730800, 3345764771, 3516065817, 3600352804, 4094571909, 275423344,
   430227734, 506948616, 659060556, 883997877, 958139571, 1322822218,
   1537002063, 1747873779, 1955562222, 2024104815, 2227730452, 2361852424,
   2428436474, 2756734187, 3204031479, 3329325298]

/-- SHA-256 initial hash state (decimal values of the standard constants). -/
def sha256H0 : List Nat :=
  [1779033703, 3144134277, 1013904242, 2773480762,
   1359893119, 2600822924, 528734635, 1541459225]

/-- Big-endian byte decomposition of `n` into `k` bytes. -/
def bytesBE (k n : Nat) : List Nat :=
  (List.range k).map (fun i => (n >>> (8 * (k - 1 - i))) % 256)

/-- SHA-256 message padding over a byte list. -/
def sha256Pad (msg : List Nat) : List Nat :=
  let len := msg.length
  let padZeros := (119 - len % 64) % 64
  msg ++ [0x80] ++ List.replicate padZeros 0 ++ bytesBE 8 (len * 8)

/-- The sixteen big-endian 32-bit words of one 64-byte chunk. -/
def chunkWords (chunk : List Nat) : List Nat :=
  (List.range 16).map (fun i =>
    (chunk.getD (4 * i) 0 <<< 24) + (chunk.getD (4 * i + 1) 0 <<< 16) +
    (chunk.getD (4 * i + 2) 0 <<< 8) + chunk.getD (4 * i + 3) 0)

/-- SHA-256 small sigma 0. -/
def ssig0 (x : Nat) : Nat := rotr32 x 7 ^^^ rotr32 x 18 ^^^ (x >>> 3)

/-- SHA-256 small sigma 1. -/
def ssig1 (x : Nat) : Nat := rotr32 x 17 ^^^ rotr32 x 19 ^^^ (x >>> 10)

/-- SHA-256 big sigma 0. -/
def bsig0 (x : Nat) : Nat := rotr32 x 2 ^^^ rotr32 x 13 ^^^ rotr32 x 22

/-- SHA-256 big sigma 1. -/
def bsig1 (x : Nat) : Nat := rotr32 x 6 ^^^ rotr32 x 11 ^^^ rotr32 x 25

/-- Extend sixteen schedule words to sixty-four. -/
def extendSchedule (w : List Nat) : List Nat :=
  (List.range 48).foldl
    (fun acc _ =>
      let i := acc.length
      acc ++ [w32 (ssig1 (acc.getD (i - 2) 0) + acc.getD (i - 7) 0 +
        ssig0 (acc.getD (i - 15) 0) + acc.getD (i - 16) 0)])
    w

/-- One SHA-256 compression round on the eight-word working state. -/
def compressStep (st : List Nat) (kw : Nat × Nat) : List Nat :=
  match st with
  | [a, b, c, d, e, f, g, h] =>
      let ch := (e &&& f) ^^^ (not32 e &&& g)
      let t1 := w32 (h + bsig1 e + ch + kw.1 + kw.2)
      let maj := (a &&& b) ^^^ (a &&& c) ^^^ (b &&& c)
      let t2 := w32 (bsig0 a + maj)
      [w32 (t1 + t2), a, b, c, w32 (d + t1), e, f, g]
  | other => other

/-- Process one 64-byte chunk into the running hash state. -/
def processChunk (h : List Nat) (chunk : List Nat) : List Nat :=
  let w := extendSchedule (chunkWords chunk)
  let st := (sha256K.zip w).foldl compressStep h
  (h.zip st).map (fun p => w32 (p.1 + p.2))

/-- Split a byte list into 64-byte chunks (fuel-driven structural recursion). -/
def chunksOf64Aux : Nat → List Nat → List (List Nat)
  | 0, _ => []
  | _, [] => []
  | fuel + 1, x :: xs => ((x :: xs).take 64) :: chunksOf64Aux fuel ((x :: xs).drop 64)

/-- Split a byte list into 64-byte chunks. -/
def chunksOf64 (xs : List Nat) : List (List Nat) := chunksOf64Aux xs.length xs

/-- UTF-8 encoding of one character (as byte values). -/
def utf8EncodeChar (c : Char) : List Nat :=
  let n := c.toNat
  if n < 128 then [n]
  else if n < 2048 then [192 + n / 64, 128 + n % 64]
  else if n < 65536 then [224 + n / 4096, 128 + n / 64 % 64, 128 + n % 64]
  else [240 + n / 262144, 128 + n / 4096 % 64, 128 + n / 64 % 64, 128 + n % 64]

/-- UTF-8 encoding of a string, as Python's `str.encode("utf-8")`. -/
def utf8Bytes (s : String) : List Nat :=
  s.data.foldl (fun acc c => acc ++ utf8EncodeChar c) []

/-- Lowercase hex digit for a value below sixteen. -/
def hexDigit (n : Nat) : Char := if n < 10 then Char.ofNat (48 + n) else Char.ofNat (87 + n)

/-- Eight lowercase hex digits of a 32-bit word, most significant first. -/
def hexWord (n : Nat) : List Char :=
  (List.range 8).map (fun i => hexDigit ((n >>> (4 * (7 - i))) % 16))

/-- Model of `hashlib.sha256(raw.encode("utf-8")).hexdigest()`. -/
def sha256Hex (s : String) : String :=
  ⟨((chunksOf64 (sha256Pad (utf8Bytes s))).foldl processChunk sha256H0).foldl
    (fun acc w => acc ++ hexWord w) []⟩

/-- Message object of the chatlog payloads, restricted to the field types
the request schema and the chat-log service supply: an optional integer
`seq`, an optional string `time`, and string `sender` / `senderName` /
`content` with Python's `.get(..., "")` defaults folded in. -/
structure Msg where
  seq : Option Int := none
  time : Option String := none
  sender : String := ""
  senderName : String := ""
  content : String := ""
  deriving DecidableEq, Repr

/-- The `talker|sender|time|content` raw string both key builders hash. -/
def keyRaw (talker : String) (m : Msg) : String :=
  talker ++ "|" ++ m.sender ++ "|" ++ m.time.getD "" ++ "|" ++ m.content

/-- Model of `_build_idempotency_key` in `app.py` (webhook path): the
talker-scoped sequence number, else the content hash. -/
def webhookKey (talker : String) (m : Msg) : String :=
  match m.seq with
  | some n => talker ++ ":" ++ toString n
  | none => sha256Hex (keyRaw talker m)

/-- Model of `_build_idempotency_key` in `chatlog_backfill.py` (backfill
path): the raw sequence number alone, else the same content hash. -/
def backfillKey (talker : String) (m : Msg) : String :=
  match m.seq with
  | some n => toString n
  | none => sha256Hex (keyRaw talker m)

/-- Whitespace for Python's `str.strip()` (modelled on the ASCII range). -/
def pyIsSpace (c : Char) : Bool :=
  c == ' ' || c == '\t' || c == '\n' || c == '\r' || c == '\x0b' || c == '\x0c'

/-- Model of Python's `str.strip()`: drop leading and trailing whitespace. -/
def pyStrip (s : String) : String :=
  ⟨((s.data.dropWhile pyIsSpace).reverse.dropWhile pyIsSpace).reverse⟩

/-- Whether the first list is an initial segment of the second. -/
def startsWithL : List Char → List Char → Bool
  | [], _ => true
  | _ :: _, [] => false
  | a :: as, b :: bs => a == b && startsWithL as bs

/-- Python `needle in hay` on character lists: occurrence as a contiguous
substring (the empty needle occurs everywhere). -/
def occursIn (needle : List Char) : List Char → Bool
  | [] => startsWithL needle []
  | c :: rest => startsWithL needle (c :: rest) || occursIn needle rest

/-- Python `needle in hay` on strings. -/
def strOccursIn (needle hay : String) : Bool := occursIn needle.data hay.data

/-- Python `str.lower()` (modelled on the ASCII range, which covers the
fixed keyword set and every input the claims evaluate). -/
def pyLower (s : String) : String := ⟨s.data.map Char.toLower⟩

/-- Per-conversation policy configuration (`TargetConfig`), modelled at the
field types `_default_target` and `upsert_target` store: the dict keys with
their `.get` defaults folded in.  Arbitrary `Any`-typed values that never
survive `upsert_target`'s normalization are outside the model. -/
structure Target where
  talker : String := ""
  enabled : Bool := true
  group_type : String := "info_gap"
  importance : Int := 3
  default_memory_bucket : String := "40_ProductMind"
  focus_topics : List String := []
  important_people : List String := []
  noise_tolerance : String := "medium"
  capture_policy : String := "summary_only"
  deriving DecidableEq, Repr

/-- Model of `_is_notification_important` in `app.py`: the content,
lowercased, contains one of the fixed notability keywords. -/
def isNotificationImportant (message : Msg) : Bool :=
  let content := pyLower message.content
  ["urgent", "important", "deadline", "meeting", "risk", "alert", "notice"].any
    (fun k => strOccursIn k content)

/-- Model of `_hits_important_people` in `app.py`: some non-empty entry
occurs in the `senderName|sender` haystack. -/
def hitsImportantPeople (message : Msg) (people : List String) : Bool :=
  if people.isEmpty then false
  else
    let hay := message.senderName ++ "|" ++ message.sender
    people.any (fun p => p ≠ "" && strOccursIn p hay)

/-- Model of `_capture_policy` in `app.py`: normalize an unknown policy
string to `summary_only`. -/
def capturePolicyOf (target : Target) : String :=
  if target.capture_policy == "summary_only" || target.capture_policy == "key_events" ||
      target.capture_policy == "hybrid" then
    target.capture_policy
  else "summary_only"

/-- Model of `_should_accept_group_message` in `app.py` (lines 371-389). -/
def shouldAcceptGroupMessage (target : Option Target) (message : Msg) : Bool :=
  match target with
  | none => true
  | some t =>
      if t.group_type == "notification" then isNotificationImportant message
      else
        let policy := capturePolicyOf t
        let importantPeople := (t.important_people.map pyStrip).filter (fun p => p ≠ "")
        if policy == "summary_only" then false
        else if policy == "key_events" then isNotificationImportant message
        else if hitsImportantPeople message importantPeople then true
        else isNotificationImportant message

/-- Running `(max_time, max_seq)` pair tracked over a batch. -/
structure BatchMax where
  maxTime : Option String := none
  maxSeq : Option Int := none
  deriving DecidableEq, Repr

/-- The batch-maximum tracking step that appears verbatim in both ingest
paths (`app.py` lines 1077-1084 and `chatlog_backfill.py` lines 107-115):
raw-string comparison on `time` with a seq tie-break on exact equality. -/
def updateBatchMax (bm : BatchMax) (message_time : Option String) (seq : Option Int) : BatchMax :=
  if bm.maxTime == none ||
      (pyTruthy message_time && pyStrGt (message_time.getD "") (bm.maxTime.getD "")) then
    { maxTime := message_time, maxSeq := seq }
  else if message_time == bm.maxTime && seq.isSome then
    if effSeq bm.maxSeq < effSeq seq then { bm with maxSeq := seq } else bm
  else bm

/-- Python `talker.endswith("@chatroom")`. -/
def isChatroom (talker : String) : Bool :=
  startsWithL "@chatroom".data.reverse talker.data.reverse

/-- Accumulator of the webhook per-message loop. -/
structure WebhookAcc where
  store : StateStore
  accepted : Nat
  deduped : Nat
  acceptedMessages : List Msg
  bm : BatchMax

/-- One iteration of the webhook per-message loop (`app.py` lines
1062-1084): key, `mark_processed`, dedup, group-policy filter, batch-max
tracking. -/
def webhookStep (talker : String) (target : Option Target) (acc : WebhookAcc) (m : Msg) :
    WebhookAcc :=
  let key := webhookKey talker m
  let message_time := m.time
  let res := mark_processed acc.store key talker message_time
  if !res.2 then { acc with store := res.1, deduped := acc.deduped + 1 }
  else if isChatroom talker && target.isSome && !shouldAcceptGroupMessage target m then
    { acc with store := res.1, deduped := acc.deduped + 1 }
  else
    { store := res.1, accepted := acc.accepted + 1, deduped := acc.deduped,
      acceptedMessages := acc.acceptedMessages ++ [m],
      bm := updateBatchMax acc.bm message_time m.seq }

/-- The webhook response body (`ChatlogWebhookResponse`). -/
structure WebhookResponse where
  ok : Bool
  talker : String
  accepted : Nat
  mode : String
  deriving DecidableEq, Repr

/-- The webhook's `mode` label. -/
def webhookMode (talker : String) : String :=
  if isChatroom talker then "group_digest" else "contact_realtime"

/-- The enabled path of the `chatlog_webhook` handler (`app.py` lines
1056-1105): the per-message loop and the conditional checkpoint advance.
Returns the final store, the response, and the deduped counter delta
recorded into `CHATLOG_RUNTIME` (persistence of the memory note is a file
write with no effect on the state store and is not modelled). -/
def chatlogWebhookRun (target : Option Target) (store : StateStore) (talker : String)
    (messages : List Msg) : StateStore × WebhookResponse × Nat :=
  let acc := messages.foldl (webhookStep talker target) ⟨store, 0, 0, [], ⟨none, none⟩⟩
  let store2 :=
    if acc.accepted > 0 then
      advance_checkpoint acc.store talker acc.bm.maxTime acc.bm.maxSeq
    else acc.store
  (store2, ⟨true, talker, acc.accepted, webhookMode talker⟩, acc.deduped)

/-- Model of the `chatlog_webhook` handler body after authentication
(`app.py` lines 1046-1105): the disabled-target early return, then the
enabled path. -/
def chatlogWebhookCore (target : Option Target) (store : StateStore) (talker : String)
    (messages : List Msg) : StateStore × WebhookResponse × Nat :=
  if (match target with | some t => !t.enabled | none => false) then
    (store, ⟨true, talker, 0, webhookMode talker⟩, 0)
  else chatlogWebhookRun target store talker messages

/-- Model of the full `chatlog_webhook` entry including the enabled flag,
token configuration and constant-time token comparison (`app.py` lines
1036-1044); `Except n` is the `HTTPException` with status `n`. -/
def chatlogWebhookFull (chatlogEnabled : Bool) (expectedToken : Option String)
    (providedToken : Option String) (target : Option Target) (store : StateStore)
    (talker : String) (messages : List Msg) :
    Except Nat (StateStore × WebhookResponse × Nat) :=
  if !chatlogEnabled then .error 503
  else
    match expectedToken with
    | none => .error 500
    | some expected =>
        if expected = "" then .error 500
        else
          match providedToken with
          | none => .error 403
          | some provided =>
              if provided = "" || provided ≠ expected then .error 403
              else .ok (chatlogWebhookCore target store talker messages)

/-- Accumulator of the backfill inner per-message loop. -/
structure BackfillMsgAcc where
  store : StateStore
  accepted : Nat
  bm : BatchMax

/-- One iteration of the backfill per-message loop (`chatlog_backfill.py`
lines 97-115): optional caller-supplied filter, key, `mark_processed`,
batch-max tracking.  The filter runs before `mark_processed`. -/
def backfillMsgStep (talker : String) (shouldAccept : Option (String → Msg → Bool))
    (acc : BackfillMsgAcc) (m : Msg) : BackfillMsgAcc :=
  if (match shouldAccept with | some f => !f talker m | none => false) then acc
  else
    let key := backfillKey talker m
    let message_time := m.time
    let res := mark_processed acc.store key talker message_time
    if !res.2 then { acc with store := res.1 }
    else
      { store := res.1, accepted := acc.accepted + 1,
        bm := updateBatchMax acc.bm message_time m.seq }

/-- Accumulator of `run_backfill_once` across talkers. -/
structure BackfillRunAcc where
  store : StateStore
  scanned : Nat
  accepted_total : Nat
  errors : Nat

/-- Model of `_to_date_str`: format an instant as `YYYY-MM-DD` in UTC.
Uses the standard civil-from-days conversion, the inverse of `toOrdinal`. -/
def civilFromDays (z0 : Int) : Int × Nat × Nat :=
  let z := z0 + 719468
  let era := z.fdiv 146097
  let doe := (z - era * 146097).toNat
  let yoe := (doe - doe / 1460 + doe / 36524 - doe / 146096) / 365
  let y := (yoe : Int) + era * 400
  let doy := doe - (365 * yoe + yoe / 4 - yoe / 100)
  let mp := (5 * doy + 2) / 153
  let d := doy - (153 * mp + 2) / 5 + 1
  let m := if mp < 10 then mp + 3 else mp - 9
  (if m ≤ 2 then y + 1 else y, m, d)

/-- Zero-pad the decimal form of `n` to `k` digits. -/
def padNum (k n : Nat) : String :=
  let s := toString n
  ⟨List.replicate (k - s.length) '0'⟩ ++ s

/-- Model of `_to_date_str` in `chatlog_backfill.py`: `YYYY-MM-DD` of an
instant (microseconds from 0001-01-01 UTC, same scale as `parseIso`). -/
def toDateStr (instant : Int) : String :=
  let ord := instant.fdiv 86400000000
  let ymd := civilFromDays (ord - 719163)
  padNum 4 ymd.1.toNat ++ "-" ++ padNum 2 ymd.2.1 ++ "-" ++ padNum 2 ymd.2.2

/-- One iteration of the talker loop of `run_backfill_once`
(`chatlog_backfill.py` lines 78-118): skip blank talkers, compute the fetch
window from the checkpoint, fetch (`Except` models a raised exception),
run the per-message loop, and advance the checkpoint when anything was
accepted. -/
def backfillTalkerStep (fetchMessages : String → String → String → Except Unit (List Msg))
    (now : Int) (bootstrapDays : Nat) (shouldAccept : Option (String → Msg → Bool))
    (acc : BackfillRunAcc) (talker : String) : BackfillRunAcc :=
  if pyStrip talker == "" then acc
  else
    let acc := { acc with scanned := acc.scanned + 1 }
    let checkpoint_time := (load_checkpoint acc.store talker).1
    let from_date :=
      if pyTruthy checkpoint_time then (checkpoint_time.getD "").take 10
      else toDateStr (now - (bootstrapDays : Int) * 86400000000)
    let to_date := toDateStr now
    match fetchMessages talker from_date to_date with
    | .error _ => { acc with errors := acc.errors + 1 }
    | .ok messages =>
        let inner := messages.foldl (backfillMsgStep talker shouldAccept) ⟨acc.store, 0, ⟨none, none⟩⟩
        if inner.accepted > 0 then
          { acc with
            store := advance_checkpoint inner.store talker inner.bm.maxTime inner.bm.maxSeq,
            accepted_total := acc.accepted_total + inner.accepted }
        else { acc with store := inner.store }

/-- Model of `run_backfill_once`: fold the talker step over the talker list
and report `{scanned, accepted, errors}` together with the final store. -/
def runBackfillOnce (store : StateStore) (talkers : List String)
    (fetchMessages : String → String → String → Except Unit (List Msg)) (now : Int)
    (bootstrapDays : Nat) (shouldAccept : Option (String → Msg → Bool)) : BackfillRunAcc :=
  talkers.foldl (backfillTalkerStep fetchMessages now bootstrapDays shouldAccept)
    ⟨store, 0, 0, 0⟩

/-- Valid `group_type` enum values (`VALID_GROUP_TYPES`). -/
def validGroupTypes : List String := ["relationship", "notification", "learning", "info_gap"]

/-- Valid `capture_policy` enum values (`VALID_CAPTURE_POLICIES`). -/
def validCapturePolicies : List String := ["summary_only", "key_events", "hybrid"]

/-- Valid `noise_tolerance` enum values (`VALID_NOISE_TOLERANCE`). -/
def validNoiseTolerance : List String := ["low", "medium", "high"]

/-- The five fixed memory buckets accepted for `default_memory_bucket`. -/
def validBuckets : List String :=
  ["00_Inbox", "10_Growth", "20_Connections", "30_Wealth", "40_ProductMind"]

/-- Model of `_default_target` in `chatlog_targets.py`. -/
def defaultTarget (talker : String) : Target :=
  { talker := talker
    enabled := true
    group_type := if isChatroom talker then "info_gap" else "relationship"
    importance := 3
    default_memory_bucket := if isChatroom talker then "40_ProductMind" else "20_Connections"
    focus_topics := []
    important_people := []
    noise_tolerance := "medium"
    capture_policy := "summary_only" }

/-- A partial update passed to `upsert_target`, at the field types the
upsert API supplies: `none` means the key is absent from the update dict. -/
structure TargetUpdates where
  enabled : Option Bool := none
  group_type : Option String := none
  importance : Option Int := none
  default_memory_bucket : Option String := none
  focus_topics : Option (List String) := none
  important_people : Option (List String) := none
  noise_tolerance : Option String := none
  capture_policy : Option String := none
  deriving DecidableEq, Repr

/-- Association-list lookup for the targets JSON document. -/
def lookupTarget : List (String × Target) → String → Option Target
  | [], _ => none
  | (k, v) :: rest, t => if k == t then some v else lookupTarget rest t

/-- Association-list upsert (dict assignment `data[talker] = merged`). -/
def upsertTargetData : List (String × Target) → String → Target → List (String × Target)
  | [], t, c => [(t, c)]
  | (k, v) :: rest, t, c =>
      if k == t then (t, c) :: rest else (k, v) :: upsertTargetData rest t c

/-- Python `max(1, min(5, n))`. -/
def clamp15 (n : Int) : Int := max 1 (min 5 n)

/-- Model of `ChatlogTargetStore.upsert_target` (`chatlog_targets.py` lines
60-95): merge the update onto the current record (or the default for a new
talker) and normalize each field, returning the new document and the merged
record. -/
def upsert_target (data : List (String × Target)) (talker : String) (u : TargetUpdates) :
    List (String × Target) × Target :=
  let current := (lookupTarget data talker).getD (defaultTarget talker)
  let g0 := u.group_type.getD current.group_type
  let b0 := u.default_memory_bucket.getD current.default_memory_bucket
  let n0 := u.noise_tolerance.getD current.noise_tolerance
  let p0 := u.capture_policy.getD current.capture_policy
  let merged : Target :=
    { talker := talker
      enabled := u.enabled.getD current.enabled
      group_type := if validGroupTypes.contains g0 then g0 else current.group_type
      importance := clamp15 (u.importance.getD current.importance)
      default_memory_bucket := if validBuckets.contains b0 then b0 else current.default_memory_bucket
      focus_topics := u.focus_topics.getD current.focus_topics
      important_people := u.important_people.getD current.important_people
      noise_tolerance := if validNoiseTolerance.contains n0 then n0 else "medium"
      capture_policy := if validCapturePolicies.contains p0 then p0 else "summary_only" }
  (upsertTargetData data talker merged, merged)

/-- The accumulated counters that feed the health signals. -/
structure HealthCounters where
  webhook_accepted_total : Nat
  webhook_deduped_total : Nat
  backfill_consecutive_error_runs : Nat
  deriving DecidableEq, Repr

/-- The runtime-configured alert thresholds.  Python float arithmetic on
the ratio is modelled by exact rationals. -/
structure HealthConfig where
  backfill_consecutive_error_threshold : Nat
  webhook_dedup_min_total : Nat
  webhook_dedup_ratio_threshold : ℚ
  deriving DecidableEq, Repr

/-- The dedup ratio computed inside `_build_chatlog_health`:
`deduped / (accepted + deduped)`, and `0.0` when there is no traffic. -/
def dedupRatio (accepted deduped : Nat) : ℚ :=
  if accepted + deduped > 0 then (deduped : ℚ) / ((accepted : ℚ) + (deduped : ℚ)) else 0

/-- The alert signals of `_build_chatlog_health` (`app.py` lines 326-336).
The reported `webhook_dedup_ratio` is `round(ratio, 4)`, which is display
only; both alerts compare the unrounded ratio. -/
structure HealthSignals where
  backfill_error_alert : Bool
  webhook_dedup_alert : Bool
  backfill_consecutive_error_runs : Nat
  deriving DecidableEq, Repr

/-- Model of the signal computation in `_build_chatlog_health`. -/
def buildChatlogHealthSignals (cfg : HealthConfig) (c : HealthCounters) : HealthSignals :=
  let total := c.webhook_accepted_total + c.webhook_deduped_total
  let ratio := dedupRatio c.webhook_accepted_total c.webhook_deduped_total
  { backfill_error_alert :=
      decide (cfg.backfill_consecutive_error_threshold ≤ c.backfill_consecutive_error_runs)
    webhook_dedup_alert :=
      decide (cfg.webhook_dedup_min_total ≤ total) &&
      decide (cfg.webhook_dedup_ratio_threshold ≤ ratio)
    backfill_consecutive_error_runs := c.backfill_consecutive_error_runs }

/-- Model of the consecutive-error-streak update in `_chatlog_backfill_loop`
(`app.py` lines 729-734). -/
def updateErrorStreak (streak : Nat) (cycleErrors : Nat) : Nat :=
  if cycleErrors > 0 then streak + 1 else 0

/-- Ordering rule of spec section 4.1, clause (d) amended to fire whenever
NOT BOTH times parse (the claim's reading requires both to fail): candidate
`(t2, s2)` is newer than stored `(t1, s1)` iff (a) `t1` is absent, or
(b) both times parse and `t2 > t1`, or (c) the parsed times are equal and
`s2 > s1` treating an absent seq as `-1`, or (d) not both times parse and
`t2` is a non-empty string that sorts after `t1` as a raw string. -/
def newerSpec (t1 : Option String) (s1 : Option Int) (t2 : Option String) (s2 : Option Int) :
    Bool :=
  t1 == none ||
  (match parseIso t1, parseIso t2 with
   | some d1, some d2 => decide (d1 < d2) || (d1 == d2 && decide (effSeq s1 < effSeq s2))
   | _, _ => false) ||
  ((parseIso t1 == none || parseIso t2 == none) &&
   (match t1, t2 with
    | some r1, some r2 => r2 ≠ "" && pyStrGt r2 r1
    | _, _ => false))

/-- Ordering rule exactly as claim C2 words it: clause (d) requires BOTH
times to fail to parse. -/
def newerClaimC2 (t1 : Option String) (s1 : Option Int) (t2 : Option String) (s2 : Option Int) :
    Bool :=
  t1 == none ||
  (match parseIso t1, parseIso t2 with
   | some d1, some d2 => decide (d1 < d2) || (d1 == d2 && decide (effSeq s1 < effSeq s2))
   | _, _ => false) ||
  ((parseIso t1 == none && parseIso t2 == none) &&
   (match t1, t2 with
    | some r1, some r2 => pyStrGt r2 r1
    | _, _ => false))

/-- Comparison key by which the checkpoint ordering ranks candidates whose
times parse: the parsed instant, then the effective sequence number,
lexicographically. -/
def ckptKey (p : Option String × Option Int) : Lex (ℤ × ℤ) :=
  toLex ((parseIso p.1).getD 0, effSeq p.2)

/-- Fold a sequence of `advance_checkpoint` calls for one talker. -/
def advanceList (st : StateStore) (talker : String)
    (L : List (Option String × Option Int)) : StateStore :=
  L.foldl (fun acc p => advance_checkpoint acc talker p.1 p.2) st

/-- Acceptance rule exactly as claim C4 words its hybrid clause: the sender
name or the sender id contains some (raw) entry of `important_people`. -/
def shouldAcceptClaimC4 (target : Option Target) (m : Msg) : Bool :=
  match target with
  | none => true
  | some t =>
      if t.group_type == "notification" then isNotificationImportant m
      else if t.capture_policy == "summary_only" then false
      else if t.capture_policy == "key_events" then isNotificationImportant m
      else if t.capture_policy == "hybrid" then
        (t.important_people.any (fun p => strOccursIn p m.senderName || strOccursIn p m.sender)) ||
          isNotificationImportant m
      else false

/-- Acceptance rule as amended: the hybrid person match tests each
whitespace-stripped non-empty entry of `important_people` for occurrence in
the joined string `senderName|sender`. -/
def shouldAcceptSpec (target : Option Target) (m : Msg) : Bool :=
  match target with
  | none => true
  | some t =>
      if t.group_type == "notification" then isNotificationImportant m
      else if t.capture_policy == "summary_only" then false
      else if t.capture_policy == "key_events" then isNotificationImportant m
      else
        (((t.important_people.map pyStrip).filter (fun p => p ≠ "")).any
          (fun p => strOccursIn p (m.senderName ++ "|" ++ m.sender))) ||
          isNotificationImportant m

/-- Code-point list of a string, the value by which Python compares it. -/
def strKeyNat (s : String) : List ℕ := s.data.map Char.toNat

/-- Comparison key of the batch-max tracking rule: the code-point list of
the raw time string, then the effective seq, lexicographically. -/
def bmKeyParts (t : Option String) (s : Option Int) : Lex (List ℕ × ℤ) :=
  toLex (strKeyNat (t.getD ""), effSeq s)

/-- Comparison key of a message under the batch-max tracking rule. -/
def bmKey (m : Msg) : Lex (List ℕ × ℤ) := bmKeyParts m.time m.seq

/-!
Theorems.  Spec-side definitions (written from the spec's words, for
refinement comparisons) are suffixed `Spec` or `Claim`; everything else is
translated from the source.
-/

example : parseIsoString "2026-02-18T10:05:00+08:00" =
    some (((toOrdinal 2026 2 18 * 86400 + 10 * 3600 + 5 * 60) * 1000000 : Nat)
      - ((8 * 3600) * 1000000 : Nat)) := by decide

example : parseIso (some "2026-01-01T00:00:00") = parseIso (some "2026-01-01T00:00:00.000000") := by
  decide

example : parseIso (some "zzz") = none := by decide

example : parseIso (some "2026-01-01") = some ((toOrdinal 2026 1 1 * 86400 * 1000000 : Nat)) := by
  decide

example : sha256Hex "" = "e3b0c44298fc1c149afbf4c8996fb92427ae41e4649b934ca495991b7852b855" := by
  decide

example : sha256Hex "abc" = "ba7816bf8f01cfea414140de5dae2223b00361a396177a9cb410ff61f20015ad" := by
  decide

/-- The code's `should_update` agrees with the amended spec rule. -/
theorem shouldUpdate_eq_newerSpec (t1 : Option String) (s1 : Option Int) (t2 : Option String)
    (s2 : Option Int) : shouldUpdate t1 s1 t2 s2 = newerSpec t1 s1 t2 s2 := by
  cases t1 with
  | none => simp [shouldUpdate, newerSpec]
  | some r1 =>
    cases t2 with
    | none =>
      simp only [shouldUpdate, newerSpec, parseIso]
      cases h1 : (if r1 = "" then none else parseIsoString r1) <;> simp
    | some r2 =>
      simp only [shouldUpdate, newerSpec]
      cases h1 : parseIso (some r1) <;> cases h2 : parseIso (some r2) <;> simp [h1, h2]
      rename_i d1 d2
      by_cases hlt : d1 < d2
      · simp [hlt]
      · by_cases heq : d1 = d2
        · subst heq; simp [hlt]
        · have heq' : ¬d2 = d1 := fun h => heq h.symm
          simp [hlt, heq, heq']

/-- C2: `advance_checkpoint` replaces the stored watermark iff the candidate
is strictly newer under the amended rule `newerSpec`, whose clause (d) fires
whenever not both times parse (not only when both fail); when the candidate
is not newer the store is unchanged. -/
theorem advance_checkpoint_updates_iff_newerSpec (st : StateStore) (talker : String)
    (t : Option String) (s : Option Int) :
    advance_checkpoint st talker t s =
      if newerSpec (load_checkpoint st talker).1 (load_checkpoint st talker).2 t s then
        { st with checkpoints := upsertCheckpoint st.checkpoints talker ⟨t, s⟩ }
      else st := by
  simp only [advance_checkpoint, shouldUpdate_eq_newerSpec]

/-- C2 counterexample: with a stored time that parses and a candidate time
`zzz` that does not, the rule as claim C2 words it (clause (d) requiring
both times to fail to parse) says the candidate is not newer, yet
`advance_checkpoint` replaces the stored watermark with it. -/
theorem advance_checkpoint_claimC2_rule_fails :
    let st1 := advance_checkpoint StateStore.empty "wxid_x"
      (some "2026-01-01T00:00:00+00:00") (some 1)
    load_checkpoint st1 "wxid_x" = (some "2026-01-01T00:00:00+00:00", some 1) ∧
    newerClaimC2 (some "2026-01-01T00:00:00+00:00") (some 1) (some "zzz") (some 2) = false ∧
    load_checkpoint (advance_checkpoint st1 "wxid_x" (some "zzz") (some 2)) "wxid_x" =
      (some "zzz", some 2) := by
  decide

theorem lookupCheckpoint_upsert_self (cks : List (String × Checkpoint)) (talker : String)
    (c : Checkpoint) : lookupCheckpoint (upsertCheckpoint cks talker c) talker = some c := by
  induction cks with
  | nil => simp [upsertCheckpoint, lookupCheckpoint]
  | cons kv rest ih =>
      obtain ⟨k, v⟩ := kv
      by_cases h : k = talker <;> simp [upsertCheckpoint, lookupCheckpoint, h, ih]

theorem load_checkpoint_advance_true {st : StateStore} {talker : String} {t : Option String}
    {s : Option Int}
    (h : shouldUpdate (load_checkpoint st talker).1 (load_checkpoint st talker).2 t s = true) :
    load_checkpoint (advance_checkpoint st talker t s) talker = (t, s) := by
  simp only [advance_checkpoint, h, if_true]
  simp [load_checkpoint, lookupCheckpoint_upsert_self]

theorem advance_checkpoint_of_not_newer {st : StateStore} {talker : String} {t : Option String}
    {s : Option Int}
    (h : shouldUpdate (load_checkpoint st talker).1 (load_checkpoint st talker).2 t s = false) :
    advance_checkpoint st talker t s = st := by
  simp [advance_checkpoint, h]

theorem shouldUpdate_of_parseable {r1 : String} {s1 : Option Int} {t2 : Option String}
    {s2 : Option Int} {d1 d2 : ℤ} (h1 : parseIso (some r1) = some d1)
    (h2 : parseIso t2 = some d2) :
    shouldUpdate (some r1) s1 t2 s2 = decide (ckptKey (some r1, s1) < ckptKey (t2, s2)) := by
  simp only [shouldUpdate, ckptKey, h1, h2, Option.getD_some]
  have hiff : (toLex ((d1 : ℤ), effSeq s1) < toLex ((d2 : ℤ), effSeq s2)) ↔
      (d1 < d2 ∨ d1 = d2 ∧ effSeq s1 < effSeq s2) := Prod.Lex.lt_iff _ _
  by_cases hlt : d1 < d2
  · simp [hlt, hiff]
  · by_cases heq : d1 = d2
    · subst heq; simp [hlt, hiff]
    · have heq' : ¬d2 = d1 := fun h => heq h.symm
      simp [hlt, heq, heq', hiff]

theorem le_foldl_max {α : Type} [LinearOrder α] (l : List α) (b : α) : b ≤ l.foldl max b := by
  induction l generalizing b with
  | nil => exact le_refl b
  | cons x xs ih => exact le_trans (le_max_left b x) (ih (max b x))

theorem mem_le_foldl_max {α : Type} [LinearOrder α] {a : α} {l : List α} (h : a ∈ l) (b : α) :
    a ≤ l.foldl max b := by
  induction l generalizing b with
  | nil => cases h
  | cons x xs ih =>
      rcases List.mem_cons.mp h with rfl | h'
      · exact le_trans (le_max_right b a) (le_foldl_max xs _)
      · exact ih h' _

theorem foldl_max_perm {α : Type} [LinearOrder α] {l1 l2 : List α} (h : l1.Perm l2) (b : α) :
    l1.foldl max b = l2.foldl max b := by
  refine h.foldl_eq' (fun x _ y _ z => ?_) b
  rw [max_assoc, max_comm x y, ← max_assoc]

theorem foldl_max_init_out {α : Type} [LinearOrder α] (l : List α) (a b : α) :
    l.foldl max (max a b) = max a (l.foldl max b) := by
  induction l generalizing b with
  | nil => rfl
  | cons x xs ih =>
      show xs.foldl max (max (max a b) x) = max a ((x :: xs).foldl max b)
      rw [max_assoc]
      exact ih (max b x)

theorem foldl_max_nonempty_perm {α : Type} [LinearOrder α] {a b : α} {as bs : List α}
    (h : (a :: as).Perm (b :: bs)) : as.foldl max a = bs.foldl max b := by
  have h1 : as.foldl max a = max a (bs.foldl max b) := by
    calc as.foldl max a = (a :: as).foldl max a := by
          show as.foldl max a = as.foldl max (max a a)
          rw [max_self]
      _ = (b :: bs).foldl max a := foldl_max_perm h a
      _ = bs.foldl max (max a b) := rfl
      _ = max a (bs.foldl max b) := foldl_max_init_out bs a b
  have ha : a ≤ bs.foldl max b := by
    have hmem : a ∈ b :: bs := h.mem_iff.mp (List.mem_cons_self a as)
    rcases List.mem_cons.mp hmem with rfl | hm
    · exact le_foldl_max bs a
    · exact mem_le_foldl_max hm b
  rw [h1, max_eq_right ha]

theorem advanceList_parseable (talker : String) (L : List (Option String × Option Int))
    (r0 : String) (s0 : Option Int) (st : StateStore)
    (h0 : load_checkpoint st talker = (some r0, s0))
    (hp0 : (parseIso (some r0)).isSome)
    (hp : ∀ p ∈ L, (parseIso p.1).isSome) :
    ∃ q ∈ (some r0, s0) :: L,
      load_checkpoint (advanceList st talker L) talker = q ∧
      ckptKey q = (L.map ckptKey).foldl max (ckptKey (some r0, s0)) := by
  induction L generalizing st r0 s0 with
  | nil =>
      exact ⟨(some r0, s0), List.mem_cons_self _ _, by simpa [advanceList] using h0, rfl⟩
  | cons p L' ih =>
      obtain ⟨d0, hd0⟩ := Option.isSome_iff_exists.mp hp0
      have hpp : (parseIso p.1).isSome := hp p (List.mem_cons_self p L')
      obtain ⟨dp, hdp⟩ := Option.isSome_iff_exists.mp hpp
      obtain ⟨rp, hrp⟩ : ∃ rp, p.1 = some rp := by
        cases hq : p.1 with
        | none => rw [hq] at hdp; simp [parseIso] at hdp
        | some r => exact ⟨r, rfl⟩
      have hpe : ((some rp, p.2) : Option String × Option Int) = p := by
        rw [← hrp]
      have hsu : shouldUpdate (load_checkpoint st talker).1 (load_checkpoint st talker).2 p.1 p.2
          = decide (ckptKey (some r0, s0) < ckptKey p) := by
        rw [h0]
        have h := @shouldUpdate_of_parseable r0 s0 p.1 p.2 d0 dp hd0 hdp
        simpa using h
      have hstep : advanceList st talker (p :: L') =
          advanceList (advance_checkpoint st talker p.1 p.2) talker L' := rfl
      have hp' : ∀ q ∈ L', (parseIso q.1).isSome := fun q hq => hp q (List.mem_cons_of_mem _ hq)
      by_cases hlt : ckptKey (some r0, s0) < ckptKey p
      · have hsu' : shouldUpdate (load_checkpoint st talker).1 (load_checkpoint st talker).2
            p.1 p.2 = true := by rw [hsu]; simpa using hlt
        have hload : load_checkpoint (advance_checkpoint st talker p.1 p.2) talker =
            (some rp, p.2) := by
          rw [load_checkpoint_advance_true hsu', hrp]
        have hp0' : (parseIso (some rp)).isSome := by rw [← hrp]; exact hpp
        obtain ⟨q, hqmem, hqload, hqkey⟩ :=
          ih rp p.2 (advance_checkpoint st talker p.1 p.2) hload hp0' hp'
        refine ⟨q, ?_, by rw [hstep]; exact hqload, ?_⟩
        · rcases List.mem_cons.mp hqmem with rfl | hq'
          · exact List.mem_cons_of_mem _ (by rw [hpe]; exact List.mem_cons_self p L')
          · exact List.mem_cons_of_mem _ (List.mem_cons_of_mem _ hq')
        · rw [hqkey, hpe]
          show (L'.map ckptKey).foldl max (ckptKey p) =
            (L'.map ckptKey).foldl max (max (ckptKey (some r0, s0)) (ckptKey p))
          rw [max_eq_right (le_of_lt hlt)]
      · have hsu' : shouldUpdate (load_checkpoint st talker).1 (load_checkpoint st talker).2
            p.1 p.2 = false := by rw [hsu]; simpa using hlt
        have hadv : advance_checkpoint st talker p.1 p.2 = st :=
          advance_checkpoint_of_not_newer hsu'
        obtain ⟨q, hqmem, hqload, hqkey⟩ := ih r0 s0 st h0 hp0 hp'
        refine ⟨q, ?_, by rw [hstep, hadv]; exact hqload, ?_⟩
        · rcases List.mem_cons.mp hqmem with rfl | hq'
          · exact List.mem_cons_self _ _
          · exact List.mem_cons_of_mem _ (List.mem_cons_of_mem _ hq')
        · rw [hqkey]
          show (L'.map ckptKey).foldl max (ckptKey (some r0, s0)) =
            (L'.map ckptKey).foldl max (max (ckptKey (some r0, s0)) (ckptKey p))
          rw [max_eq_left (le_of_not_lt hlt)]

theorem advanceList_nonempty (talker : String) (p0 : Option String × Option Int)
    (L : List (Option String × Option Int))
    (hp : ∀ p ∈ p0 :: L, (parseIso p.1).isSome) :
    load_checkpoint (advanceList StateStore.empty talker (p0 :: L)) talker ∈ (p0 :: L) ∧
    ckptKey (load_checkpoint (advanceList StateStore.empty talker (p0 :: L)) talker) =
      (L.map ckptKey).foldl max (ckptKey p0) := by
  have hp0 : (parseIso p0.1).isSome := hp p0 (List.mem_cons_self p0 L)
  obtain ⟨r0, hr0⟩ : ∃ r0, p0.1 = some r0 := by
    obtain ⟨d0, hd0⟩ := Option.isSome_iff_exists.mp hp0
    cases hq : p0.1 with
    | none => rw [hq] at hd0; simp [parseIso] at hd0
    | some r => exact ⟨r, rfl⟩
  have hpe : ((some r0, p0.2) : Option String × Option Int) = p0 := by rw [← hr0]
  have hsu0 : shouldUpdate (load_checkpoint StateStore.empty talker).1
      (load_checkpoint StateStore.empty talker).2 p0.1 p0.2 = true := rfl
  have hload : load_checkpoint (advance_checkpoint StateStore.empty talker p0.1 p0.2) talker =
      (some r0, p0.2) := by
    rw [load_checkpoint_advance_true hsu0, hr0]
  have hp0' : (parseIso (some r0)).isSome := by rw [← hr0]; exact hp0
  have hp' : ∀ q ∈ L, (parseIso q.1).isSome := fun q hq => hp q (List.mem_cons_of_mem _ hq)
  obtain ⟨q, hqmem, hqload, hqkey⟩ := advanceList_parseable talker L r0 p0.2
    (advance_checkpoint StateStore.empty talker p0.1 p0.2) hload hp0' hp'
  have hstep : advanceList StateStore.empty talker (p0 :: L) =
      advanceList (advance_checkpoint StateStore.empty talker p0.1 p0.2) talker L := rfl
  rw [hstep, hqload]
  constructor
  · rcases List.mem_cons.mp hqmem with rfl | hq'
    · rw [hpe]; exact List.mem_cons_self p0 L
    · exact List.mem_cons_of_mem _ hq'
  · rw [hqkey, hpe]

/-- C1 counterexample: two `advance_checkpoint` calls whose times are
distinct strings denoting the same instant (`2026-01-01T00:00:00` and
`2026-01-01T00:00:00.000000`) and whose seqs are equal produce different
stored checkpoints under the two orders, so the final state is not the same
for every permutation of the calls. -/
theorem advance_checkpoint_not_permutation_invariant :
    let a : Option String × Option Int := (some "2026-01-01T00:00:00", some 5)
    let b : Option String × Option Int := (some "2026-01-01T00:00:00.000000", some 5)
    load_checkpoint (advanceList StateStore.empty "wxid_x" [a, b]) "wxid_x" ≠
      load_checkpoint (advanceList StateStore.empty "wxid_x" [b, a]) "wxid_x" := by
  decide

/-- C1 (amended): for calls whose times all parse as ISO-8601, the final
stored checkpoint is one of the calls, it dominates every call under the
section 4.1 ordering key (parsed instant, then effective seq), and that key
is the same for every permutation of the calls; the stored raw time string,
however, may differ between permutations when two calls tie on the key. -/
theorem advance_checkpoint_fold_max_of_parseable (talker : String)
    (L1 L2 : List (Option String × Option Int)) (hperm : L1.Perm L2)
    (hne : L1 ≠ []) (hp : ∀ p ∈ L1, (parseIso p.1).isSome) :
    load_checkpoint (advanceList StateStore.empty talker L1) talker ∈ L1 ∧
    (∀ p ∈ L1,
      ckptKey p ≤ ckptKey (load_checkpoint (advanceList StateStore.empty talker L1) talker)) ∧
    ckptKey (load_checkpoint (advanceList StateStore.empty talker L1) talker) =
      ckptKey (load_checkpoint (advanceList StateStore.empty talker L2) talker) := by
  obtain ⟨p1, L1', rfl⟩ : ∃ p1 L1', L1 = p1 :: L1' := by
    cases L1 with
    | nil => exact absurd rfl hne
    | cons p l => exact ⟨p, l, rfl⟩
  obtain ⟨p2, L2', rfl⟩ : ∃ p2 L2', L2 = p2 :: L2' := by
    cases L2 with
    | nil => exact absurd hperm.symm (by simp)
    | cons p l => exact ⟨p, l, rfl⟩
  have hp2 : ∀ p ∈ p2 :: L2', (parseIso p.1).isSome := fun p hq =>
    hp p (hperm.symm.subset hq)
  obtain ⟨hmem1, hkey1⟩ := advanceList_nonempty talker p1 L1' hp
  obtain ⟨hmem2, hkey2⟩ := advanceList_nonempty talker p2 L2' hp2
  refine ⟨hmem1, ?_, ?_⟩
  · intro p hpmem
    rw [hkey1]
    rcases List.mem_cons.mp hpmem with rfl | hq'
    · exact le_foldl_max _ _
    · exact mem_le_foldl_max (List.mem_map_of_mem ckptKey hq') _
  · rw [hkey1, hkey2]
    have hmapperm : (ckptKey p1 :: L1'.map ckptKey).Perm (ckptKey p2 :: L2'.map ckptKey) :=
      hperm.map ckptKey
    exact foldl_max_nonempty_perm hmapperm

/-- Witness for the amended C1 theorem at concrete inputs. -/
theorem advance_checkpoint_fold_max_of_parseable_witness :
    let L1 : List (Option String × Option Int) :=
      [(some "2026-01-01T10:00:00+08:00", some 1), (some "2026-01-01T09:00:00+00:00", some 2)]
    let L2 : List (Option String × Option Int) :=
      [(some "2026-01-01T09:00:00+00:00", some 2), (some "2026-01-01T10:00:00+08:00", some 1)]
    load_checkpoint (advanceList StateStore.empty "wxid_x" L1) "wxid_x" ∈ L1 ∧
    (∀ p ∈ L1,
      ckptKey p ≤ ckptKey (load_checkpoint (advanceList StateStore.empty "wxid_x" L1) "wxid_x")) ∧
    ckptKey (load_checkpoint (advanceList StateStore.empty "wxid_x" L1) "wxid_x") =
      ckptKey (load_checkpoint (advanceList StateStore.empty "wxid_x" L2) "wxid_x") :=
  advance_checkpoint_fold_max_of_parseable "wxid_x" _ _ (by decide) (by decide) (by decide)

/-- C4 counterexample: with `important_people = [" A|B "]`, sender name `A`
and sender id `B`, the code accepts (the stripped entry `A|B` occurs in the
joined haystack `A|B`), but the claim's rule rejects: neither the name nor
the id contains the entry, and the content matches no keyword. -/
theorem should_accept_hybrid_claim_fails :
    let t : Target :=
      { group_type := "info_gap", capture_policy := "hybrid", important_people := [" A|B "] }
    let m : Msg := { senderName := "A", sender := "B", content := "hello" }
    shouldAcceptGroupMessage (some t) m = true ∧ shouldAcceptClaimC4 (some t) m = false := by
  decide

theorem any_drop_nonempty_guard (hay : String) (l : List String) (hl : ∀ p ∈ l, p ≠ "") :
    l.any (fun p => p ≠ "" && strOccursIn p hay) = l.any (fun p => strOccursIn p hay) := by
  induction l with
  | nil => rfl
  | cons x xs ih =>
      have hx : x ≠ "" := hl x (List.mem_cons_self x xs)
      have hxs : ∀ p ∈ xs, p ≠ "" := fun p hp => hl p (List.mem_cons_of_mem x hp)
      rw [List.any_cons, List.any_cons, ih hxs]
      simp [hx]

theorem hitsImportantPeople_eq_any (m : Msg) (people : List String) :
    hitsImportantPeople m ((people.map pyStrip).filter (fun p => p ≠ "")) =
      ((people.map pyStrip).filter (fun p => p ≠ "")).any
        (fun p => strOccursIn p (m.senderName ++ "|" ++ m.sender)) := by
  unfold hitsImportantPeople
  by_cases he : ((people.map pyStrip).filter (fun p => p ≠ "")).isEmpty
  · rw [if_pos he]
    rw [List.isEmpty_iff] at he
    rw [he]
    rfl
  · rw [if_neg he]
    refine any_drop_nonempty_guard _ _ ?_
    intro p hp
    have := List.of_mem_filter hp
    simpa using this

/-- C4 (amended): the evaluator agrees with the spec rule whose hybrid
person-match tests stripped non-empty entries against `senderName|sender`,
for every configuration whose `capture_policy` is one of the three valid
values (the claim's trichotomy) and every message. -/
theorem should_accept_matches_spec (target : Option Target) (m : Msg)
    (hpol : ∀ t, target = some t → t.capture_policy ∈ validCapturePolicies) :
    shouldAcceptGroupMessage target m = shouldAcceptSpec target m := by
  cases target with
  | none => rfl
  | some t =>
      have hp := hpol t rfl
      simp only [validCapturePolicies, List.mem_cons, List.not_mem_nil, or_false] at hp
      simp only [shouldAcceptGroupMessage, shouldAcceptSpec]
      by_cases hg : t.group_type == "notification"
      · simp [hg]
      · have hcp : capturePolicyOf t = t.capture_policy := by
          rcases hp with h | h | h <;> simp [capturePolicyOf, h]
        rcases hp with h | h | h
        · simp [hg, hcp, h]
        · simp [hg, hcp, h]
        · simp only [hg, hcp, h, Bool.false_eq_true, if_false]
          rw [hitsImportantPeople_eq_any]
          cases hany : ((t.important_people.map pyStrip).filter (fun p => p ≠ "")).any
              (fun p => strOccursIn p (m.senderName ++ "|" ++ m.sender)) <;> simp [hany]

/-- Witness for the amended C4 theorem at a concrete hybrid configuration. -/
theorem should_accept_matches_spec_witness :
    let t : Target :=
      { group_type := "info_gap", capture_policy := "hybrid", important_people := ["VIP"] }
    let m : Msg := { senderName := "VIP", content := "routine" }
    shouldAcceptGroupMessage (some t) m = shouldAcceptSpec (some t) m :=
  should_accept_matches_spec _ _ (by decide)

theorem isProcessed_mark (st : StateStore) (k t : String) (mt : Option String) :
    isProcessed (mark_processed st k t mt).1 k = true := by
  unfold mark_processed
  by_cases h : isProcessed st k
  · simp [h]
  · simp only [h, Bool.false_eq_true, if_false]
    simp [isProcessed, List.any_append]

theorem isProcessed_mark_mono {st : StateStore} {k' : String} (k t : String) (mt : Option String)
    (h : isProcessed st k' = true) : isProcessed (mark_processed st k t mt).1 k' = true := by
  unfold mark_processed
  by_cases hk : isProcessed st k
  · simpa [hk]
  · simp only [hk, Bool.false_eq_true, if_false]
    simp only [isProcessed, List.any_append] at h ⊢
    simp [h]

theorem advance_checkpoint_processed (st : StateStore) (talker : String) (t : Option String)
    (s : Option Int) : (advance_checkpoint st talker t s).processed = st.processed := by
  dsimp only [advance_checkpoint]
  split <;> rfl

theorem mark_processed_of_processed {st : StateStore} {k : String} (t : String)
    (mt : Option String) (h : isProcessed st k = true) : mark_processed st k t mt = (st, false) := by
  simp [mark_processed, h]

theorem webhookStep_store (talker : String) (target : Option Target) (acc : WebhookAcc)
    (m : Msg) : (webhookStep talker target acc m).store =
      (mark_processed acc.store (webhookKey talker m) talker m.time).1 := by
  dsimp only [webhookStep]
  split
  · rfl
  · split <;> rfl

theorem webhookStep_key_processed (talker : String) (target : Option Target) (acc : WebhookAcc)
    (m : Msg) :
    isProcessed (webhookStep talker target acc m).store (webhookKey talker m) = true := by
  rw [webhookStep_store]
  exact isProcessed_mark _ _ _ _

theorem webhookStep_processed_mono (talker : String) (target : Option Target) {acc : WebhookAcc}
    {k : String} (m : Msg) (h : isProcessed acc.store k = true) :
    isProcessed (webhookStep talker target acc m).store k = true := by
  rw [webhookStep_store]
  exact isProcessed_mark_mono _ _ _ h

theorem webhook_foldl_processed_mono (talker : String) (target : Option Target)
    (messages : List Msg) (acc : WebhookAcc) {k : String} (h : isProcessed acc.store k = true) :
    isProcessed ((messages.foldl (webhookStep talker target) acc).store) k = true := by
  induction messages generalizing acc with
  | nil => exact h
  | cons y ys ih => exact ih _ (webhookStep_processed_mono talker target y h)

theorem webhook_foldl_key_processed (talker : String) (target : Option Target)
    (messages : List Msg) (acc : WebhookAcc) {m : Msg} (hm : m ∈ messages) :
    isProcessed ((messages.foldl (webhookStep talker target) acc).store)
      (webhookKey talker m) = true := by
  induction messages generalizing acc with
  | nil => cases hm
  | cons x xs ih =>
      rcases List.mem_cons.mp hm with rfl | h'
      · exact webhook_foldl_processed_mono talker target xs _
          (webhookStep_key_processed talker target acc m)
      · exact ih _ h'

theorem isProcessed_congr {st st' : StateStore} (h : st.processed = st'.processed) (k : String) :
    isProcessed st k = isProcessed st' k := by
  simp [isProcessed, h]

theorem chatlogWebhookCore_enabled (target : Option Target) (st : StateStore) (talker : String)
    (messages : List Msg) (hen : ∀ t, target = some t → t.enabled = true) :
    chatlogWebhookCore target st talker messages = chatlogWebhookRun target st talker messages := by
  cases target with
  | none => rfl
  | some t => simp [chatlogWebhookCore, hen t rfl]

theorem chatlogWebhookRun_processed (target : Option Target) (st : StateStore) (talker : String)
    (messages : List Msg) {m : Msg} (hm : m ∈ messages) :
    isProcessed (chatlogWebhookRun target st talker messages).1 (webhookKey talker m) = true := by
  dsimp only [chatlogWebhookRun]
  have hfold := webhook_foldl_key_processed talker target messages ⟨st, 0, 0, [], ⟨none, none⟩⟩ hm
  split
  · rw [isProcessed_congr (advance_checkpoint_processed _ _ _ _) _]
    exact hfold
  · exact hfold

theorem chatlogWebhookCore_processed_of_enabled (target : Option Target) (st : StateStore)
    (talker : String) (messages : List Msg) {m : Msg} (hm : m ∈ messages)
    (hen : ∀ t, target = some t → t.enabled = true) :
    isProcessed (chatlogWebhookCore target st talker messages).1 (webhookKey talker m) = true := by
  rw [chatlogWebhookCore_enabled target st talker messages hen]
  exact chatlogWebhookRun_processed target st talker messages hm

theorem backfillMsgStep_dedup (talker : String) (acc : BackfillMsgAcc) (m : Msg)
    (h : isProcessed acc.store (backfillKey talker m) = true) :
    backfillMsgStep talker none acc m = acc := by
  unfold backfillMsgStep
  simp [mark_processed_of_processed _ _ h]

/-- C6: for a message carrying a numeric sequence number the webhook key is
the talker-scoped `talker:seq` while the backfill key is the raw `seq`
alone; for a message without one, both paths hash the identical
`talker|sender|time|content` string, so a sequence-less message ingested via
the webhook path is deduplicated (the step is a no-op: not accepted, store
untouched) when re-observed by the backfill path for the same talker. -/
theorem idempotency_keys_and_cross_path_dedup (talker : String) (m : Msg) :
    (∀ n : Int, m.seq = some n →
      webhookKey talker m = talker ++ ":" ++ toString n ∧
      backfillKey talker m = toString n) ∧
    (m.seq = none →
      webhookKey talker m = backfillKey talker m ∧
      webhookKey talker m = sha256Hex (keyRaw talker m)) ∧
    (∀ st : StateStore, m.seq = none →
      backfillMsgStep talker none
          ⟨(chatlogWebhookCore none st talker [m]).1, 0, ⟨none, none⟩⟩ m =
        ⟨(chatlogWebhookCore none st talker [m]).1, 0, ⟨none, none⟩⟩) := by
  refine ⟨?_, ?_, ?_⟩
  · intro n h
    constructor <;> simp [webhookKey, backfillKey, h]
  · intro h
    constructor <;> simp [webhookKey, backfillKey, h]
  · intro st h
    apply backfillMsgStep_dedup
    show isProcessed (chatlogWebhookCore none st talker [m]).1 (backfillKey talker m) = true
    have hkey : webhookKey talker m = backfillKey talker m := by
      simp [webhookKey, backfillKey, h]
    rw [← hkey]
    exact chatlogWebhookCore_processed_of_enabled none st talker [m]
      (List.mem_cons_self m []) (fun t ht => by cases ht)

/-- Witness for C6 at concrete messages: one with a sequence number, one
without. -/
theorem idempotency_keys_and_cross_path_dedup_witness :
    (webhookKey "wxid_a" { seq := some 5 } = "wxid_a:5" ∧
      backfillKey "wxid_a" { seq := some 5 } = "5") ∧
    (webhookKey "wxid_a" { sender := "alice", time := some "2026-01-01T00:00:00", content := "hi" } =
      backfillKey "wxid_a"
        { sender := "alice", time := some "2026-01-01T00:00:00", content := "hi" }) ∧
    backfillMsgStep "wxid_a" none
        ⟨(chatlogWebhookCore none StateStore.empty "wxid_a"
            [{ sender := "alice", time := some "2026-01-01T00:00:00", content := "hi" }]).1, 0,
          ⟨none, none⟩⟩
        { sender := "alice", time := some "2026-01-01T00:00:00", content := "hi" } =
      ⟨(chatlogWebhookCore none StateStore.empty "wxid_a"
          [{ sender := "alice", time := some "2026-01-01T00:00:00", content := "hi" }]).1, 0,
        ⟨none, none⟩⟩ := by
  refine ⟨(idempotency_keys_and_cross_path_dedup "wxid_a" _).1 5 rfl, ?_, ?_⟩
  · exact ((idempotency_keys_and_cross_path_dedup "wxid_a" _).2.1 rfl).1
  · exact (idempotency_keys_and_cross_path_dedup "wxid_a" _).2.2 StateStore.empty rfl

theorem mark_processed_of_new {st : StateStore} {k : String} (t : String) (mt : Option String)
    (h : isProcessed st k = false) :
    mark_processed st k t mt =
      ({ st with processed := st.processed ++ [⟨k, t, mt⟩] }, true) := by
  simp [mark_processed, h]

theorem webhookStep_dup (talker : String) (target : Option Target) (acc : WebhookAcc) (m : Msg)
    (h : isProcessed acc.store (webhookKey talker m) = true) :
    webhookStep talker target acc m = { acc with deduped := acc.deduped + 1 } := by
  dsimp only [webhookStep]
  rw [mark_processed_of_processed talker m.time h]
  simp

theorem webhookStep_new_pass (talker : String) (target : Option Target) (acc : WebhookAcc)
    (m : Msg) (hnew : isProcessed acc.store (webhookKey talker m) = false)
    (hpass : (isChatroom talker && target.isSome && !shouldAcceptGroupMessage target m) = false) :
    webhookStep talker target acc m =
      { store := { acc.store with
          processed := acc.store.processed ++ [⟨webhookKey talker m, talker, m.time⟩] },
        accepted := acc.accepted + 1, deduped := acc.deduped,
        acceptedMessages := acc.acceptedMessages ++ [m],
        bm := updateBatchMax acc.bm m.time m.seq } := by
  dsimp only [webhookStep]
  rw [mark_processed_of_new talker m.time hnew]
  simp [hpass]

theorem chatlogWebhookCore_single_dedup (target : Option Target) (st : StateStore)
    (talker : String) (m : Msg) (h : isProcessed st (webhookKey talker m) = true) :
    (chatlogWebhookCore target st talker [m]).2.1.accepted = 0 ∧
    (chatlogWebhookCore target st talker [m]).1 = st := by
  unfold chatlogWebhookCore
  split
  · exact ⟨rfl, rfl⟩
  · have hstep : List.foldl (webhookStep talker target) ⟨st, 0, 0, [], ⟨none, none⟩⟩ [m] =
        { store := st, accepted := 0, deduped := 1, acceptedMessages := [],
          bm := ⟨none, none⟩ } := by
      show webhookStep talker target ⟨st, 0, 0, [], ⟨none, none⟩⟩ m = _
      rw [webhookStep_dup talker target _ m h]
    dsimp only [chatlogWebhookRun]
    rw [hstep]
    exact ⟨rfl, rfl⟩

theorem chatlogWebhookRun_single_new_pass (target : Option Target) (st : StateStore)
    (talker : String) (m : Msg)
    (hnew : isProcessed st (webhookKey talker m) = false)
    (hpass : (isChatroom talker && target.isSome && !shouldAcceptGroupMessage target m) = false) :
    chatlogWebhookRun target st talker [m] =
      (advance_checkpoint
          { st with processed := st.processed ++ [⟨webhookKey talker m, talker, m.time⟩] }
          talker (updateBatchMax ⟨none, none⟩ m.time m.seq).maxTime
          (updateBatchMax ⟨none, none⟩ m.time m.seq).maxSeq,
        ⟨true, talker, 1, webhookMode talker⟩, 0) := by
  dsimp only [chatlogWebhookRun]
  have hstep : List.foldl (webhookStep talker target) ⟨st, 0, 0, [], ⟨none, none⟩⟩ [m] =
      { store := { st with processed := st.processed ++ [⟨webhookKey talker m, talker, m.time⟩] },
        accepted := 1, deduped := 0, acceptedMessages := [m],
        bm := updateBatchMax ⟨none, none⟩ m.time m.seq } := by
    show webhookStep talker target ⟨st, 0, 0, [], ⟨none, none⟩⟩ m = _
    rw [webhookStep_new_pass talker target _ m hnew hpass]
    simp
  rw [hstep]
  simp

/-- C3 (amended): for every store in which the single message (carrying a
sequence number) is not yet processed, and every target configuration that
is neither disabled nor policy-rejecting for it, delivering the same
webhook request twice with a valid token returns accepted = 1 on the first
call and accepted = 0 on the second, and the stored checkpoint for the
talker is identical after the first and after the second call. -/
theorem webhook_redelivery_idempotent (token : String) (target : Option Target)
    (st : StateStore) (talker : String) (m : Msg) (n : Int)
    (htok : token ≠ "")
    (_hseq : m.seq = some n)
    (hnew : isProcessed st (webhookKey talker m) = false)
    (hen : ∀ t, target = some t → t.enabled = true)
    (hacc : (isChatroom talker && target.isSome && !shouldAcceptGroupMessage target m) = false) :
    chatlogWebhookFull true (some token) (some token) target st talker [m] =
      .ok (chatlogWebhookCore target st talker [m]) ∧
    (chatlogWebhookCore target st talker [m]).2.1.accepted = 1 ∧
    (chatlogWebhookCore target (chatlogWebhookCore target st talker [m]).1
        talker [m]).2.1.accepted = 0 ∧
    load_checkpoint (chatlogWebhookCore target (chatlogWebhookCore target st talker [m]).1
        talker [m]).1 talker =
      load_checkpoint (chatlogWebhookCore target st talker [m]).1 talker := by
  have hfull : chatlogWebhookFull true (some token) (some token) target st talker [m] =
      .ok (chatlogWebhookCore target st talker [m]) := by
    simp [chatlogWebhookFull, htok]
  have hcore : chatlogWebhookCore target st talker [m] = chatlogWebhookRun target st talker [m] :=
    chatlogWebhookCore_enabled _ _ _ _ hen
  have hrun := chatlogWebhookRun_single_new_pass target st talker m hnew hacc
  have hproc : isProcessed (chatlogWebhookCore target st talker [m]).1
      (webhookKey talker m) = true :=
    chatlogWebhookCore_processed_of_enabled target st talker [m] (List.mem_cons_self m []) hen
  obtain ⟨hacc0, hst⟩ := chatlogWebhookCore_single_dedup target
    (chatlogWebhookCore target st talker [m]).1 talker m hproc
  refine ⟨hfull, ?_, hacc0, by rw [hst]⟩
  rw [hcore, hrun]

/-- C3 counterexample: for a talker configured `summary_only` (the spec's
own policy-modes example), the very first delivery of a fresh message with
a sequence number already returns accepted = 0, not accepted = 1, so the
claim's universally quantified first-call behaviour fails. -/
theorem webhook_redelivery_claim_fails_for_filtered_talker :
    (chatlogWebhookFull true (some "top-secret") (some "top-secret")
        (some { talker := "summary@chatroom", group_type := "learning",
                capture_policy := "summary_only" })
        StateStore.empty "summary@chatroom" [{ seq := some 10, content := "normal" }]).toOption =
      some (chatlogWebhookCore
        (some { talker := "summary@chatroom", group_type := "learning",
                capture_policy := "summary_only" })
        StateStore.empty "summary@chatroom" [{ seq := some 10, content := "normal" }]) ∧
    (chatlogWebhookCore
        (some { talker := "summary@chatroom", group_type := "learning",
                capture_policy := "summary_only" })
        StateStore.empty "summary@chatroom"
        [{ seq := some 10, content := "normal" }]).2.1.accepted = 0 := by
  constructor
  · rfl
  · decide

/-- Witness for the amended C3 theorem at a concrete fresh store and
unconfigured contact talker. -/
theorem webhook_redelivery_idempotent_witness :
    let m : Msg := { seq := some 7, time := some "2026-02-18T10:00:00+08:00", content := "hi" }
    chatlogWebhookFull true (some "tok") (some "tok") none StateStore.empty "wxid_a" [m] =
      .ok (chatlogWebhookCore none StateStore.empty "wxid_a" [m]) ∧
    (chatlogWebhookCore none StateStore.empty "wxid_a" [m]).2.1.accepted = 1 ∧
    (chatlogWebhookCore none (chatlogWebhookCore none StateStore.empty "wxid_a" [m]).1
        "wxid_a" [m]).2.1.accepted = 0 ∧
    load_checkpoint (chatlogWebhookCore none
        (chatlogWebhookCore none StateStore.empty "wxid_a" [m]).1 "wxid_a" [m]).1 "wxid_a" =
      load_checkpoint (chatlogWebhookCore none StateStore.empty "wxid_a" [m]).1 "wxid_a" :=
  webhook_redelivery_idempotent "tok" none StateStore.empty "wxid_a" _ 7
    (by decide) rfl (by decide) (fun t ht => by cases ht) (by decide)

theorem webhookStep_new_reject (talker : String) (target : Option Target) (acc : WebhookAcc)
    (m : Msg) (hnew : isProcessed acc.store (webhookKey talker m) = false)
    (hrej : (isChatroom talker && target.isSome && !shouldAcceptGroupMessage target m) = true) :
    webhookStep talker target acc m =
      { acc with
        store := { acc.store with
          processed := acc.store.processed ++ [⟨webhookKey talker m, talker, m.time⟩] },
        deduped := acc.deduped + 1 } := by
  dsimp only [webhookStep]
  rw [mark_processed_of_new talker m.time hnew]
  simp [hrej]

theorem backfillMsgStep_filtered (talker : String) (f : String → Msg → Bool)
    (acc : BackfillMsgAcc) (m : Msg) (h : f talker m = false) :
    backfillMsgStep talker (some f) acc m = acc := by
  simp [backfillMsgStep, h]

theorem backfillMsgStep_accepting (talker : String) (f : String → Msg → Bool)
    (acc : BackfillMsgAcc) (m : Msg) (hf : f talker m = true)
    (hnew : isProcessed acc.store (backfillKey talker m) = false) :
    backfillMsgStep talker (some f) acc m =
      { store := { acc.store with
          processed := acc.store.processed ++ [⟨backfillKey talker m, talker, m.time⟩] },
        accepted := acc.accepted + 1,
        bm := updateBatchMax acc.bm m.time m.seq } := by
  dsimp only [backfillMsgStep]
  rw [mark_processed_of_new talker m.time hnew]
  simp [hf]

/-- C10: the two ingest paths order deduplication and policy filtering
differently.  Webhook path: a new message the policy rejects has already
been recorded in `processed_messages` before the policy ran, so the call
reports accepted = 0 yet leaves the record, and any later delivery is
deduped (accepted = 0) under every target configuration, even one that
would accept it.  Backfill path: the caller-supplied predicate runs before
`mark_processed`, so a rejected message leaves the accumulator exactly
unchanged (no record), and a later run with an accepting predicate still
accepts it. -/
theorem dedup_policy_order_differs_between_paths (st : StateStore) (talker : String)
    (t : Target) (m : Msg)
    (hgroup : isChatroom talker = true)
    (hen : t.enabled = true)
    (hrej : shouldAcceptGroupMessage (some t) m = false)
    (hnew : isProcessed st (webhookKey talker m) = false) :
    (chatlogWebhookCore (some t) st talker [m]).2.1.accepted = 0 ∧
    isProcessed (chatlogWebhookCore (some t) st talker [m]).1 (webhookKey talker m) = true ∧
    (∀ target2 : Option Target,
      (chatlogWebhookCore target2 (chatlogWebhookCore (some t) st talker [m]).1
        talker [m]).2.1.accepted = 0) ∧
    (∀ f : String → Msg → Bool, ∀ acc : BackfillMsgAcc, f talker m = false →
      backfillMsgStep talker (some f) acc m = acc) ∧
    (∀ f : String → Msg → Bool, ∀ acc : BackfillMsgAcc, f talker m = true →
      isProcessed acc.store (backfillKey talker m) = false →
      (backfillMsgStep talker (some f) acc m).accepted = acc.accepted + 1) := by
  have hen' : ∀ t', (some t : Option Target) = some t' → t'.enabled = true := by
    intro t' ht'
    cases ht'
    exact hen
  have hcond : (isChatroom talker && (some t : Option Target).isSome &&
      !shouldAcceptGroupMessage (some t) m) = true := by
    simp [hgroup, hrej]
  have hcore : chatlogWebhookCore (some t) st talker [m] =
      chatlogWebhookRun (some t) st talker [m] :=
    chatlogWebhookCore_enabled _ _ _ _ hen'
  have hstep := webhookStep_new_reject talker (some t) ⟨st, 0, 0, [], ⟨none, none⟩⟩ m hnew hcond
  have hrun : chatlogWebhookRun (some t) st talker [m] =
      ({ st with processed := st.processed ++ [⟨webhookKey talker m, talker, m.time⟩] },
        ⟨true, talker, 0, webhookMode talker⟩, 1) := by
    dsimp only [chatlogWebhookRun]
    rw [show List.foldl (webhookStep talker (some t)) ⟨st, 0, 0, [], ⟨none, none⟩⟩ [m] =
        webhookStep talker (some t) ⟨st, 0, 0, [], ⟨none, none⟩⟩ m from rfl, hstep]
    simp
  have hproc : isProcessed (chatlogWebhookCore (some t) st talker [m]).1
      (webhookKey talker m) = true :=
    chatlogWebhookCore_processed_of_enabled (some t) st talker [m]
      (List.mem_cons_self m []) hen'
  refine ⟨?_, hproc, ?_, ?_, ?_⟩
  · rw [hcore, hrun]
  · intro target2
    exact (chatlogWebhookCore_single_dedup target2 _ talker m hproc).1
  · intro f acc hf
    exact backfillMsgStep_filtered talker f acc m hf
  · intro f acc hf hnew2
    rw [backfillMsgStep_accepting talker f acc m hf hnew2]

/-- Witness for C10 at a concrete group talker whose config rejects every
message (`summary_only`). -/
theorem dedup_policy_order_differs_between_paths_witness :
    let t : Target := { talker := "g@chatroom", group_type := "info_gap",
                        capture_policy := "summary_only" }
    let m : Msg := { seq := some 3, content := "hello" }
    (chatlogWebhookCore (some t) StateStore.empty "g@chatroom" [m]).2.1.accepted = 0 ∧
    isProcessed (chatlogWebhookCore (some t) StateStore.empty "g@chatroom" [m]).1
      (webhookKey "g@chatroom" m) = true ∧
    (∀ target2 : Option Target,
      (chatlogWebhookCore target2
        (chatlogWebhookCore (some t) StateStore.empty "g@chatroom" [m]).1
        "g@chatroom" [m]).2.1.accepted = 0) ∧
    (∀ f : String → Msg → Bool, ∀ acc : BackfillMsgAcc, f "g@chatroom" m = false →
      backfillMsgStep "g@chatroom" (some f) acc m = acc) ∧
    (∀ f : String → Msg → Bool, ∀ acc : BackfillMsgAcc, f "g@chatroom" m = true →
      isProcessed acc.store (backfillKey "g@chatroom" m) = false →
      (backfillMsgStep "g@chatroom" (some f) acc m).accepted = acc.accepted + 1) :=
  dedup_policy_order_differs_between_paths StateStore.empty "g@chatroom" _ _
    (by decide) (by decide) (by decide) (by decide)

theorem backfillTalkerStep_error (fetchMessages : String → String → String → Except Unit (List Msg))
    (now : Int) (bootstrapDays : Nat) (sa : Option (String → Msg → Bool))
    (acc : BackfillRunAcc) (T : String)
    (hT : (pyStrip T == "") = false)
    (hfail : ∀ fd td, fetchMessages T fd td = .error ()) :
    backfillTalkerStep fetchMessages now bootstrapDays sa acc T =
      { acc with scanned := acc.scanned + 1, errors := acc.errors + 1 } := by
  dsimp only [backfillTalkerStep]
  rw [hT]
  simp only [Bool.false_eq_true, if_false]
  rw [hfail]

theorem backfillTalkerStep_shift (fetchMessages : String → String → String → Except Unit (List Msg))
    (now : Int) (bootstrapDays : Nat) (sa : Option (String → Msg → Bool))
    (s : StateStore) (x y z a b c : Nat) (T : String) :
    backfillTalkerStep fetchMessages now bootstrapDays sa ⟨s, x + a, y + b, z + c⟩ T =
      { store := (backfillTalkerStep fetchMessages now bootstrapDays sa ⟨s, x, y, z⟩ T).store,
        scanned := (backfillTalkerStep fetchMessages now bootstrapDays sa ⟨s, x, y, z⟩ T).scanned + a,
        accepted_total :=
          (backfillTalkerStep fetchMessages now bootstrapDays sa ⟨s, x, y, z⟩ T).accepted_total + b,
        errors := (backfillTalkerStep fetchMessages now bootstrapDays sa ⟨s, x, y, z⟩ T).errors + c } := by
  dsimp only [backfillTalkerStep]
  by_cases hT : (pyStrip T == "") = true
  · simp [hT]
  · simp only [hT, Bool.false_eq_true, if_false]
    cases hres : fetchMessages T
        (if pyTruthy (load_checkpoint s T).1 then ((load_checkpoint s T).1.getD "").take 10
         else toDateStr (now - (bootstrapDays : Int) * 86400000000))
        (toDateStr now) with
    | error e => simp [hres]; omega
    | ok messages =>
        simp only [hres]
        by_cases hacc : (messages.foldl (backfillMsgStep T sa) ⟨s, 0, ⟨none, none⟩⟩).accepted > 0 <;>
          simp [hacc] <;> omega

theorem backfillFold_shift (fetchMessages : String → String → String → Except Unit (List Msg))
    (now : Int) (bootstrapDays : Nat) (sa : Option (String → Msg → Bool))
    (l : List String) (s : StateStore) (x y z a b c : Nat) :
    l.foldl (backfillTalkerStep fetchMessages now bootstrapDays sa) ⟨s, x + a, y + b, z + c⟩ =
      { store := (l.foldl (backfillTalkerStep fetchMessages now bootstrapDays sa)
          ⟨s, x, y, z⟩).store,
        scanned := (l.foldl (backfillTalkerStep fetchMessages now bootstrapDays sa)
          ⟨s, x, y, z⟩).scanned + a,
        accepted_total := (l.foldl (backfillTalkerStep fetchMessages now bootstrapDays sa)
          ⟨s, x, y, z⟩).accepted_total + b,
        errors := (l.foldl (backfillTalkerStep fetchMessages now bootstrapDays sa)
          ⟨s, x, y, z⟩).errors + c } := by
  induction l generalizing s x y z with
  | nil => rfl
  | cons T l ih =>
      show l.foldl _ (backfillTalkerStep fetchMessages now bootstrapDays sa ⟨s, x + a, y + b, z + c⟩ T) = _
      rw [backfillTalkerStep_shift]
      exact ih _ _ _ _

theorem backfillFold_shift_acc (fetchMessages : String → String → String → Except Unit (List Msg))
    (now : Int) (bootstrapDays : Nat) (sa : Option (String → Msg → Bool))
    (l : List String) (acc : BackfillRunAcc) (a b c : Nat) :
    l.foldl (backfillTalkerStep fetchMessages now bootstrapDays sa)
        ⟨acc.store, acc.scanned + a, acc.accepted_total + b, acc.errors + c⟩ =
      { store := (l.foldl (backfillTalkerStep fetchMessages now bootstrapDays sa) acc).store,
        scanned := (l.foldl (backfillTalkerStep fetchMessages now bootstrapDays sa) acc).scanned + a,
        accepted_total :=
          (l.foldl (backfillTalkerStep fetchMessages now bootstrapDays sa) acc).accepted_total + b,
        errors := (l.foldl (backfillTalkerStep fetchMessages now bootstrapDays sa) acc).errors + c } :=
  backfillFold_shift fetchMessages now bootstrapDays sa l acc.store acc.scanned
    acc.accepted_total acc.errors a b c

/-- C5: a talker whose fetch raises is isolated within the cycle: relative
to the same cycle without it, the store (checkpoints and processed-message
records, for it and for every other talker) is identical, the error count
is exactly one higher, the accepted count is unchanged, and the scanned
count is one higher. -/
theorem backfill_fetch_error_isolated
    (fetchMessages : String → String → String → Except Unit (List Msg))
    (now : Int) (bootstrapDays : Nat) (sa : Option (String → Msg → Bool))
    (pre post : List String) (T : String) (st : StateStore)
    (hT : (pyStrip T == "") = false)
    (hfail : ∀ fd td, fetchMessages T fd td = .error ()) :
    (runBackfillOnce st (pre ++ T :: post) fetchMessages now bootstrapDays sa).store =
      (runBackfillOnce st (pre ++ post) fetchMessages now bootstrapDays sa).store ∧
    (runBackfillOnce st (pre ++ T :: post) fetchMessages now bootstrapDays sa).errors =
      (runBackfillOnce st (pre ++ post) fetchMessages now bootstrapDays sa).errors + 1 ∧
    (runBackfillOnce st (pre ++ T :: post) fetchMessages now bootstrapDays sa).accepted_total =
      (runBackfillOnce st (pre ++ post) fetchMessages now bootstrapDays sa).accepted_total ∧
    (runBackfillOnce st (pre ++ T :: post) fetchMessages now bootstrapDays sa).scanned =
      (runBackfillOnce st (pre ++ post) fetchMessages now bootstrapDays sa).scanned + 1 := by
  have hleft : runBackfillOnce st (pre ++ T :: post) fetchMessages now bootstrapDays sa =
      (T :: post).foldl (backfillTalkerStep fetchMessages now bootstrapDays sa)
        (pre.foldl (backfillTalkerStep fetchMessages now bootstrapDays sa) ⟨st, 0, 0, 0⟩) := by
    simp [runBackfillOnce, List.foldl_append]
  have hright : runBackfillOnce st (pre ++ post) fetchMessages now bootstrapDays sa =
      post.foldl (backfillTalkerStep fetchMessages now bootstrapDays sa)
        (pre.foldl (backfillTalkerStep fetchMessages now bootstrapDays sa) ⟨st, 0, 0, 0⟩) := by
    simp [runBackfillOnce, List.foldl_append]
  rw [hleft, hright]
  set A := pre.foldl (backfillTalkerStep fetchMessages now bootstrapDays sa) ⟨st, 0, 0, 0⟩
  have hstepT : backfillTalkerStep fetchMessages now bootstrapDays sa A T =
      ⟨A.store, A.scanned + 1, A.accepted_total + 0, A.errors + 1⟩ := by
    rw [backfillTalkerStep_error fetchMessages now bootstrapDays sa A T hT hfail]
    simp
  have hcons : (T :: post).foldl (backfillTalkerStep fetchMessages now bootstrapDays sa) A =
      post.foldl (backfillTalkerStep fetchMessages now bootstrapDays sa)
        ⟨A.store, A.scanned + 1, A.accepted_total + 0, A.errors + 1⟩ := by
    rw [List.foldl_cons, hstepT]
  rw [hcons, backfillFold_shift_acc]
  exact ⟨rfl, rfl, rfl, rfl⟩

/-- Witness for C5: the spec's own example, a cycle whose fetch raises for
`wxid_a` with existing checkpoint `("2026-02-18T10:05:00+08:00", 101)`:
the checkpoint stays at exactly that value, one error, zero accepted. -/
theorem backfill_fetch_error_isolated_witness :
    let st := advance_checkpoint StateStore.empty "wxid_a"
      (some "2026-02-18T10:05:00+08:00") (some 101)
    let failFetch : String → String → String → Except Unit (List Msg) := fun _ _ _ => .error ()
    let now : Int := (((toOrdinal 2026 2 18 * 86400 + 12 * 3600) * 1000000 : Nat) : Int)
    ((runBackfillOnce st ([] ++ "wxid_a" :: []) failFetch now 1 none).store =
        (runBackfillOnce st ([] ++ []) failFetch now 1 none).store ∧
      (runBackfillOnce st ([] ++ "wxid_a" :: []) failFetch now 1 none).errors =
        (runBackfillOnce st ([] ++ []) failFetch now 1 none).errors + 1 ∧
      (runBackfillOnce st ([] ++ "wxid_a" :: []) failFetch now 1 none).accepted_total =
        (runBackfillOnce st ([] ++ []) failFetch now 1 none).accepted_total ∧
      (runBackfillOnce st ([] ++ "wxid_a" :: []) failFetch now 1 none).scanned =
        (runBackfillOnce st ([] ++ []) failFetch now 1 none).scanned + 1) ∧
    load_checkpoint (runBackfillOnce st ("wxid_a" :: []) failFetch now 1 none).store "wxid_a" =
      (some "2026-02-18T10:05:00+08:00", some 101) ∧
    (runBackfillOnce st ("wxid_a" :: []) failFetch now 1 none).errors = 1 ∧
    (runBackfillOnce st ("wxid_a" :: []) failFetch now 1 none).accepted_total = 0 :=
  ⟨backfill_fetch_error_isolated _ _ 1 none [] [] "wxid_a" _ (by decide) (fun _ _ => rfl),
   by decide, by decide, by decide⟩

theorem charToNat_injective : Function.Injective Char.toNat := by
  intro a b h
  have : a.val = b.val := by
    rcases a with ⟨⟨⟨av, hav⟩⟩, ha⟩
    rcases b with ⟨⟨⟨bv, hbv⟩⟩, hb⟩
    simp_all [Char.toNat, UInt32.toNat]
  exact Char.eq_of_val_eq this

theorem strKeyNat_injective : Function.Injective strKeyNat := by
  intro s t h
  have hdata : s.data = t.data := List.map_injective_iff.mpr charToNat_injective h
  cases s
  cases t
  exact congrArg String.mk hdata

theorem lex_cons_iff_nat {x y : ℕ} {xs ys : List ℕ} :
    List.Lex (· < ·) (x :: xs) (y :: ys) ↔ x < y ∨ (x = y ∧ List.Lex (· < ·) xs ys) := by
  constructor
  · intro h
    cases h with
    | rel h => exact Or.inl h
    | cons h => exact Or.inr ⟨rfl, h⟩
  · rintro (h | ⟨rfl, h⟩)
    · exact List.Lex.rel h
    · exact List.Lex.cons h

theorem pyCharListLt_iff (as bs : List Char) :
    pyCharListLt as bs = true ↔ List.Lex (· < ·) (as.map Char.toNat) (bs.map Char.toNat) := by
  induction as generalizing bs with
  | nil =>
      cases bs with
      | nil => simp [pyCharListLt]
      | cons b bs => simp [pyCharListLt]; exact List.Lex.nil
  | cons a as ih =>
      cases bs with
      | nil =>
          simp only [pyCharListLt, List.map_nil, Bool.false_eq_true, false_iff]
          exact List.Lex.not_nil_right _ _
      | cons b bs =>
          simp only [pyCharListLt, List.map_cons, Bool.or_eq_true, Bool.and_eq_true,
            decide_eq_true_eq, beq_iff_eq]
          rw [lex_cons_iff_nat]
          constructor
          · rintro (hlt | ⟨heq, hrec⟩)
            · exact Or.inl hlt
            · exact Or.inr ⟨heq, (ih bs).mp hrec⟩
          · rintro (hlt | ⟨heq, hrec⟩)
            · exact Or.inl hlt
            · exact Or.inr ⟨heq, (ih bs).mpr hrec⟩

theorem pyStrLt_iff_keyNat (a b : String) : pyStrLt a b = true ↔ strKeyNat a < strKeyNat b := by
  show pyCharListLt a.data b.data = true ↔ List.Lex (· < ·) _ _
  exact pyCharListLt_iff a.data b.data

theorem updateBatchMax_step (bm : BatchMax) (tb tc : String) (s : Option Int)
    (hbm : bm.maxTime = some tb) (htb : tb ≠ "") (htc : tc ≠ "")
    (hsb : -1 ≤ effSeq bm.maxSeq) (hsc : -1 ≤ effSeq s) :
    (updateBatchMax bm (some tc) s = bm ∧
      bmKeyParts (some tc) s ≤ bmKeyParts bm.maxTime bm.maxSeq) ∨
    (updateBatchMax bm (some tc) s = ⟨some tc, s⟩ ∧
      bmKeyParts bm.maxTime bm.maxSeq ≤ bmKeyParts (some tc) s) := by
  dsimp only [updateBatchMax]
  rw [hbm]
  by_cases hgt : pyStrGt tc tb = true
  · have hlt : strKeyNat tb < strKeyNat tc := (pyStrLt_iff_keyNat tb tc).mp hgt
    refine Or.inr ⟨?_, ?_⟩
    · simp [pyTruthy, htc, hgt]
    · exact le_of_lt ((Prod.Lex.lt_iff (strKeyNat tb, effSeq bm.maxSeq)
        (strKeyNat tc, effSeq s)).mpr (Or.inl hlt))
  · have hgt' : pyStrGt tc tb = false := by
      cases hx : pyStrGt tc tb
      · rfl
      · exact absurd hx hgt
    have hnlt : ¬strKeyNat tb < strKeyNat tc := by
      intro h
      exact hgt ((pyStrLt_iff_keyNat tb tc).mpr h)
    have hle : strKeyNat tc ≤ strKeyNat tb := le_of_not_lt hnlt
    by_cases heq : tc = tb
    · subst heq
      by_cases hsome : s.isSome
      · by_cases hlt2 : effSeq bm.maxSeq < effSeq s
        · refine Or.inr ⟨?_, ?_⟩
          · simp only [pyTruthy, htc, hgt]
            simp [pyTruthy, htc, hgt', hsome, hlt2, hbm]
          · exact (Prod.Lex.le_iff (strKeyNat tc, effSeq bm.maxSeq)
              (strKeyNat tc, effSeq s)).mpr (Or.inr ⟨rfl, le_of_lt hlt2⟩)
        · refine Or.inl ⟨?_, ?_⟩
          · simp only [pyTruthy, htc, hgt]
            simp [pyTruthy, htc, hgt', hsome, hlt2, hbm]
          · exact (Prod.Lex.le_iff (strKeyNat tc, effSeq s)
              (strKeyNat tc, effSeq bm.maxSeq)).mpr (Or.inr ⟨rfl, le_of_not_lt hlt2⟩)
      · refine Or.inl ⟨?_, ?_⟩
        · simp only [pyTruthy, htc, hgt]
          simp [pyTruthy, htc, hgt', hsome, hbm]
        · have hs' : s = none := Option.not_isSome_iff_eq_none.mp (by simpa using hsome)
          subst hs'
          exact (Prod.Lex.le_iff (strKeyNat tc, effSeq none)
            (strKeyNat tc, effSeq bm.maxSeq)).mpr (Or.inr ⟨rfl, hsb⟩)
    · have hne : strKeyNat tc ≠ strKeyNat tb := fun h => heq (strKeyNat_injective h)
      have hlt3 : strKeyNat tc < strKeyNat tb := lt_of_le_of_ne hle hne
      refine Or.inl ⟨?_, ?_⟩
      · simp only [pyTruthy, htc, hgt]
        simp [pyTruthy, htc, hgt', hbm, heq]
      · exact le_of_lt ((Prod.Lex.lt_iff (strKeyNat tc, effSeq s)
          (strKeyNat tb, effSeq bm.maxSeq)).mpr (Or.inl hlt3))

theorem batchMax_fold (msgs : List Msg) (bm : BatchMax) (tb : String)
    (hbm : bm.maxTime = some tb) (htb : tb ≠ "") (hsb : -1 ≤ effSeq bm.maxSeq)
    (hp : ∀ m ∈ msgs, ∃ t, m.time = some t ∧ t ≠ "")
    (hs : ∀ m ∈ msgs, -1 ≤ effSeq m.seq) :
    ∃ q : Option String × Option Int,
      q ∈ ((bm.maxTime, bm.maxSeq) :: msgs.map (fun m => (m.time, m.seq))) ∧
      msgs.foldl (fun b m => updateBatchMax b m.time m.seq) bm = ⟨q.1, q.2⟩ ∧
      bmKeyParts q.1 q.2 = (msgs.map bmKey).foldl max (bmKeyParts bm.maxTime bm.maxSeq) := by
  induction msgs generalizing bm tb with
  | nil => exact ⟨(bm.maxTime, bm.maxSeq), List.mem_cons_self _ _, rfl, rfl⟩
  | cons m ms ih =>
      obtain ⟨tm, htm, htmne⟩ := hp m (List.mem_cons_self m ms)
      have hsm := hs m (List.mem_cons_self m ms)
      have hp' : ∀ x ∈ ms, ∃ t, x.time = some t ∧ t ≠ "" :=
        fun x hx => hp x (List.mem_cons_of_mem _ hx)
      have hs' : ∀ x ∈ ms, -1 ≤ effSeq x.seq := fun x hx => hs x (List.mem_cons_of_mem _ hx)
      have hstep0 : updateBatchMax bm m.time m.seq = updateBatchMax bm (some tm) m.seq := by
        rw [htm]
      rcases updateBatchMax_step bm tb tm m.seq hbm htb htmne hsb hsm with
        ⟨heq, hle⟩ | ⟨heq, hle⟩
      · have hfold : (m :: ms).foldl (fun b x => updateBatchMax b x.time x.seq) bm =
            ms.foldl (fun b x => updateBatchMax b x.time x.seq) bm := by
          show ms.foldl _ (updateBatchMax bm m.time m.seq) = _
          rw [hstep0, heq]
        obtain ⟨q, hqmem, hqfold, hqkey⟩ := ih bm tb hbm htb hsb hp' hs'
        refine ⟨q, ?_, by rw [hfold]; exact hqfold, ?_⟩
        · rcases List.mem_cons.mp hqmem with h | h
          · exact h ▸ List.mem_cons_self _ _
          · exact List.mem_cons_of_mem _ (List.mem_cons_of_mem _ h)
        · rw [hqkey]
          show (ms.map bmKey).foldl max (bmKeyParts bm.maxTime bm.maxSeq) =
            (ms.map bmKey).foldl max (max (bmKeyParts bm.maxTime bm.maxSeq) (bmKey m))
          have hkm : bmKey m = bmKeyParts (some tm) m.seq := by rw [bmKey, htm]
          rw [hkm, max_eq_left hle]
      · have hfold : (m :: ms).foldl (fun b x => updateBatchMax b x.time x.seq) bm =
            ms.foldl (fun b x => updateBatchMax b x.time x.seq) ⟨some tm, m.seq⟩ := by
          show ms.foldl _ (updateBatchMax bm m.time m.seq) = _
          rw [hstep0, heq]
        obtain ⟨q, hqmem, hqfold, hqkey⟩ :=
          ih ⟨some tm, m.seq⟩ tm rfl htmne hsm hp' hs'
        refine ⟨q, ?_, by rw [hfold]; exact hqfold, ?_⟩
        · rcases List.mem_cons.mp hqmem with h | h
          · refine List.mem_cons_of_mem _ ?_
            rw [h]
            show ((some tm : Option String), m.seq) ∈ (m.time, m.seq) :: ms.map _
            rw [← htm]
            exact List.mem_cons_self _ _
          · exact List.mem_cons_of_mem _ (List.mem_cons_of_mem _ h)
        · rw [hqkey]
          show (ms.map bmKey).foldl max (bmKeyParts (some tm) m.seq) =
            (ms.map bmKey).foldl max (max (bmKeyParts bm.maxTime bm.maxSeq) (bmKey m))
          have hkm : bmKey m = bmKeyParts (some tm) m.seq := by rw [bmKey, htm]
          rw [hkm, max_eq_right hle]

theorem updateBatchMax_initial (t : Option String) (s : Option Int) :
    updateBatchMax ⟨none, none⟩ t s = ⟨t, s⟩ := by
  simp [updateBatchMax]

theorem webhookStep_bm_invariant (talker : String) (target : Option Target) (acc : WebhookAcc)
    (m : Msg)
    (h : acc.bm = acc.acceptedMessages.foldl (fun b mm => updateBatchMax b mm.time mm.seq)
      ⟨none, none⟩) :
    (webhookStep talker target acc m).bm =
      ((webhookStep talker target acc m).acceptedMessages).foldl
        (fun b mm => updateBatchMax b mm.time mm.seq) ⟨none, none⟩ := by
  dsimp only [webhookStep]
  split
  · exact h
  · split
    · exact h
    · show updateBatchMax acc.bm m.time m.seq =
        (acc.acceptedMessages ++ [m]).foldl (fun b mm => updateBatchMax b mm.time mm.seq)
          ⟨none, none⟩
      rw [List.foldl_append, h]
      rfl

/-- C7 counterexample: a batch of two accepted messages whose time strings
denote the same instant (`...T00:00:00.000000` and `...T00:00:00`): the
webhook's tracking keeps the raw-string-larger first message `(.000000, 1)`
and passes it to `advance_checkpoint`, yet under the section 4.1 ordering
the second message `(plain, 2)` is strictly newer than the stored pair, so
the tracked pair is not the batch maximum under the checkpoint rule. -/
theorem batch_max_not_checkpoint_ordering :
    let m1 : Msg := { seq := some 1, time := some "2026-01-01T00:00:00.000000", content := "a" }
    let m2 : Msg := { seq := some 2, time := some "2026-01-01T00:00:00", content := "b" }
    let st1 := (chatlogWebhookCore none StateStore.empty "wxid_x" [m1, m2]).1
    load_checkpoint st1 "wxid_x" = (some "2026-01-01T00:00:00.000000", some 1) ∧
    shouldUpdate (some "2026-01-01T00:00:00.000000") (some 1)
      (some "2026-01-01T00:00:00") (some 2) = true := by
  decide

/-- C7 (amended): both ingest paths track the batch maximum by the
identical rule `updateBatchMax` — raw-string comparison on the time with an
effective-seq tie-break — and not by the section 4.1 parsed ordering.
First conjunct: the webhook loop's tracked pair is exactly the
`updateBatchMax` fold over its accepted messages (the backfill loop invokes
`updateBatchMax` on exactly its accepted messages by definition of
`backfillMsgStep`).  Second conjunct: for every non-empty batch whose
members carry non-empty time strings and seqs at least `-1`, the tracked
pair is one of the batch's `(time, seq)` pairs and dominates every member
under the raw-string key. -/
theorem batch_max_raw_string_maximum :
    (∀ (talker : String) (target : Option Target) (st : StateStore) (messages : List Msg),
      (messages.foldl (webhookStep talker target) ⟨st, 0, 0, [], ⟨none, none⟩⟩).bm =
        ((messages.foldl (webhookStep talker target)
            ⟨st, 0, 0, [], ⟨none, none⟩⟩).acceptedMessages).foldl
          (fun b m => updateBatchMax b m.time m.seq) ⟨none, none⟩) ∧
    (∀ (m0 : Msg) (rest : List Msg),
      (∀ m ∈ m0 :: rest, ∃ t, m.time = some t ∧ t ≠ "") →
      (∀ m ∈ m0 :: rest, -1 ≤ effSeq m.seq) →
      ∃ q : Option String × Option Int,
        q ∈ (m0 :: rest).map (fun m => (m.time, m.seq)) ∧
        (m0 :: rest).foldl (fun b m => updateBatchMax b m.time m.seq) ⟨none, none⟩ =
          ⟨q.1, q.2⟩ ∧
        ∀ m ∈ m0 :: rest, bmKey m ≤ bmKeyParts q.1 q.2) := by
  constructor
  · intro talker target st messages
    have hbase : (⟨st, 0, 0, [], ⟨none, none⟩⟩ : WebhookAcc).bm =
        (⟨st, 0, 0, [], ⟨none, none⟩⟩ : WebhookAcc).acceptedMessages.foldl
          (fun b mm => updateBatchMax b mm.time mm.seq) ⟨none, none⟩ := rfl
    induction messages generalizing st with
    | nil => exact hbase
    | cons x xs ih =>
        have hgen : ∀ acc : WebhookAcc,
            acc.bm = acc.acceptedMessages.foldl
              (fun b mm => updateBatchMax b mm.time mm.seq) ⟨none, none⟩ →
            (xs.foldl (webhookStep talker target) acc).bm =
              ((xs.foldl (webhookStep talker target) acc).acceptedMessages).foldl
                (fun b mm => updateBatchMax b mm.time mm.seq) ⟨none, none⟩ := by
          clear ih hbase
          induction xs with
          | nil => exact fun acc h => h
          | cons y ys ih2 =>
              exact fun acc h => ih2 _ (webhookStep_bm_invariant talker target acc y h)
        exact hgen _ (webhookStep_bm_invariant talker target _ x hbase)
  · intro m0 rest hp hs
    obtain ⟨tm0, htm0, htm0ne⟩ := hp m0 (List.mem_cons_self m0 rest)
    have hfirst : updateBatchMax ⟨none, none⟩ m0.time m0.seq = ⟨m0.time, m0.seq⟩ :=
      updateBatchMax_initial m0.time m0.seq
    have hp' : ∀ m ∈ rest, ∃ t, m.time = some t ∧ t ≠ "" :=
      fun m hm => hp m (List.mem_cons_of_mem _ hm)
    have hs' : ∀ m ∈ rest, -1 ≤ effSeq m.seq := fun m hm => hs m (List.mem_cons_of_mem _ hm)
    have hbm0 : (⟨m0.time, m0.seq⟩ : BatchMax).maxTime = some tm0 := htm0
    obtain ⟨q, hqmem, hqfold, hqkey⟩ := batchMax_fold rest ⟨m0.time, m0.seq⟩ tm0 hbm0 htm0ne
      (hs m0 (List.mem_cons_self m0 rest)) hp' hs'
    refine ⟨q, ?_, ?_, ?_⟩
    · exact hqmem
    · show rest.foldl (fun b m => updateBatchMax b m.time m.seq)
        (updateBatchMax ⟨none, none⟩ m0.time m0.seq) = _
      rw [hfirst]
      exact hqfold
    · intro m hm
      rw [hqkey]
      rcases List.mem_cons.mp hm with rfl | hm'
      · exact le_foldl_max _ _
      · exact mem_le_foldl_max (List.mem_map_of_mem bmKey hm') _

/-- Witness for the amended C7 theorem at a concrete batch. -/
theorem batch_max_raw_string_maximum_witness :
    ((([] : List Msg).foldl (webhookStep "wxid_a" none)
        ⟨StateStore.empty, 0, 0, [], ⟨none, none⟩⟩).bm =
      ((([] : List Msg).foldl (webhookStep "wxid_a" none)
          ⟨StateStore.empty, 0, 0, [], ⟨none, none⟩⟩).acceptedMessages).foldl
        (fun b m => updateBatchMax b m.time m.seq) ⟨none, none⟩) ∧
    (∃ q : Option String × Option Int,
      q ∈ ([{ seq := some 1, time := some "2026-01-01T10:00:00" },
            { seq := some 2, time := some "2026-01-01T09:00:00" }] : List Msg).map
          (fun m => (m.time, m.seq)) ∧
      (([{ seq := some 1, time := some "2026-01-01T10:00:00" },
         { seq := some 2, time := some "2026-01-01T09:00:00" }] : List Msg).foldl
          (fun b m => updateBatchMax b m.time m.seq) ⟨none, none⟩) = ⟨q.1, q.2⟩ ∧
      ∀ m ∈ ([{ seq := some 1, time := some "2026-01-01T10:00:00" },
              { seq := some 2, time := some "2026-01-01T09:00:00" }] : List Msg),
        bmKey m ≤ bmKeyParts q.1 q.2) :=
  ⟨batch_max_raw_string_maximum.1 "wxid_a" none StateStore.empty [],
   batch_max_raw_string_maximum.2 { seq := some 1, time := some "2026-01-01T10:00:00" }
     [{ seq := some 2, time := some "2026-01-01T09:00:00" }]
     (by
       intro m hm
       rcases List.mem_cons.mp hm with rfl | hm'
       · exact ⟨"2026-01-01T10:00:00", rfl, by decide⟩
       · rcases List.mem_cons.mp hm' with rfl | hm''
         · exact ⟨"2026-01-01T09:00:00", rfl, by decide⟩
         · cases hm'')
     (by
       intro m hm
       rcases List.mem_cons.mp hm with rfl | hm'
       · decide
       · rcases List.mem_cons.mp hm' with rfl | hm''
         · decide
         · cases hm'')⟩

/-- C8 counterexample: with a stored config whose `noise_tolerance` is
`high`, an upsert carrying the invalid value `loud` stores `medium` (the
fixed default), not the previous value `high` as the claim states. -/
theorem upsert_target_invalid_noise_not_previous :
    let d1 := (upsert_target [] "t@chatroom" { noise_tolerance := some "high" }).1
    (lookupTarget d1 "t@chatroom").map (fun c => c.noise_tolerance) = some "high" ∧
    (upsert_target d1 "t@chatroom" { noise_tolerance := some "loud" }).2.noise_tolerance =
      "medium" := by
  decide

/-- C8 (amended): on upsert, an unknown `group_type` or
`default_memory_bucket` falls back to the current value (the previous
record's, or the type-appropriate default on first creation), while an
unknown `noise_tolerance` or `capture_policy` falls back to the fixed
defaults `medium` / `summary_only` regardless of the previous value; the
stored field is always a valid enum value whenever the current one is, so
an invalid value is never stored. -/
theorem upsert_target_invalid_enum_handling (data : List (String × Target)) (talker : String)
    (u : TargetUpdates) :
    (∀ g, u.group_type = some g → validGroupTypes.contains g = false →
      (upsert_target data talker u).2.group_type =
        ((lookupTarget data talker).getD (defaultTarget talker)).group_type) ∧
    (∀ b, u.default_memory_bucket = some b → validBuckets.contains b = false →
      (upsert_target data talker u).2.default_memory_bucket =
        ((lookupTarget data talker).getD (defaultTarget talker)).default_memory_bucket) ∧
    (∀ x, u.noise_tolerance = some x → validNoiseTolerance.contains x = false →
      (upsert_target data talker u).2.noise_tolerance = "medium") ∧
    (∀ p, u.capture_policy = some p → validCapturePolicies.contains p = false →
      (upsert_target data talker u).2.capture_policy = "summary_only") ∧
    (validGroupTypes.contains
        ((lookupTarget data talker).getD (defaultTarget talker)).group_type = true →
      validGroupTypes.contains (upsert_target data talker u).2.group_type = true) ∧
    (validBuckets.contains
        ((lookupTarget data talker).getD (defaultTarget talker)).default_memory_bucket = true →
      validBuckets.contains (upsert_target data talker u).2.default_memory_bucket = true) ∧
    validNoiseTolerance.contains (upsert_target data talker u).2.noise_tolerance = true ∧
    validCapturePolicies.contains (upsert_target data talker u).2.capture_policy = true := by
  refine ⟨?_, ?_, ?_, ?_, ?_, ?_, ?_, ?_⟩
  · intro g hg hinv
    have hinv' : ¬g ∈ validGroupTypes := by simpa using hinv
    simp [upsert_target, hg, hinv']
  · intro b hb hinv
    have hinv' : ¬b ∈ validBuckets := by simpa using hinv
    simp [upsert_target, hb, hinv']
  · intro x hx hinv
    have hinv' : ¬x ∈ validNoiseTolerance := by simpa using hinv
    simp [upsert_target, hx, hinv']
  · intro p hp hinv
    have hinv' : ¬p ∈ validCapturePolicies := by simpa using hinv
    simp [upsert_target, hp, hinv']
  · intro hcur
    dsimp only [upsert_target]
    split
    · rename_i h
      exact h
    · exact hcur
  · intro hcur
    dsimp only [upsert_target]
    split
    · rename_i h
      exact h
    · exact hcur
  · dsimp only [upsert_target]
    split
    · rename_i h
      exact h
    · rfl
  · dsimp only [upsert_target]
    split
    · rename_i h
      exact h
    · rfl

/-- Witness for the amended C8 theorem at a concrete store and update. -/
theorem upsert_target_invalid_enum_handling_witness :
    let d1 := (upsert_target [] "t@chatroom"
      { group_type := some "learning", noise_tolerance := some "high" }).1
    let u : TargetUpdates := { group_type := some "bogus", default_memory_bucket := some "99_X",
                               noise_tolerance := some "loud", capture_policy := some "none" }
    (upsert_target d1 "t@chatroom" u).2.group_type =
      ((lookupTarget d1 "t@chatroom").getD (defaultTarget "t@chatroom")).group_type ∧
    (upsert_target d1 "t@chatroom" u).2.default_memory_bucket =
      ((lookupTarget d1 "t@chatroom").getD (defaultTarget "t@chatroom")).default_memory_bucket ∧
    (upsert_target d1 "t@chatroom" u).2.noise_tolerance = "medium" ∧
    (upsert_target d1 "t@chatroom" u).2.capture_policy = "summary_only" ∧
    validGroupTypes.contains (upsert_target d1 "t@chatroom" u).2.group_type = true ∧
    validBuckets.contains (upsert_target d1 "t@chatroom" u).2.default_memory_bucket = true ∧
    validNoiseTolerance.contains (upsert_target d1 "t@chatroom" u).2.noise_tolerance = true ∧
    validCapturePolicies.contains (upsert_target d1 "t@chatroom" u).2.capture_policy = true := by
  refine ⟨(upsert_target_invalid_enum_handling _ "t@chatroom" _).1 "bogus" rfl (by decide),
    (upsert_target_invalid_enum_handling _ "t@chatroom" _).2.1 "99_X" rfl (by decide),
    (upsert_target_invalid_enum_handling _ "t@chatroom" _).2.2.1 "loud" rfl (by decide),
    (upsert_target_invalid_enum_handling _ "t@chatroom" _).2.2.2.1 "none" rfl (by decide),
    (upsert_target_invalid_enum_handling _ "t@chatroom" _).2.2.2.2.1 (by decide),
    (upsert_target_invalid_enum_handling _ "t@chatroom" _).2.2.2.2.2.1 (by decide),
    (upsert_target_invalid_enum_handling _ "t@chatroom" _).2.2.2.2.2.2.1,
    (upsert_target_invalid_enum_handling _ "t@chatroom" _).2.2.2.2.2.2.2⟩

/-- C9: the health signals are a pure function of the accumulated counters:
the dedup ratio is `deduped / (accepted + deduped)` and zero with no
traffic; the backfill alert holds iff the consecutive-error streak reaches
the configured threshold; the dedup alert holds iff total traffic reaches
the configured minimum and the ratio reaches the configured threshold; and
the streak counter increments by one after a cycle with a non-zero error
count and resets to zero after a cycle with zero errors. -/
theorem chatlog_health_signals_spec (cfg : HealthConfig) (c : HealthCounters) :
    (dedupRatio c.webhook_accepted_total c.webhook_deduped_total =
      if c.webhook_accepted_total + c.webhook_deduped_total = 0 then 0
      else (c.webhook_deduped_total : ℚ) /
        ((c.webhook_accepted_total : ℚ) + (c.webhook_deduped_total : ℚ))) ∧
    ((buildChatlogHealthSignals cfg c).backfill_error_alert = true ↔
      cfg.backfill_consecutive_error_threshold ≤ c.backfill_consecutive_error_runs) ∧
    ((buildChatlogHealthSignals cfg c).webhook_dedup_alert = true ↔
      (cfg.webhook_dedup_min_total ≤ c.webhook_accepted_total + c.webhook_deduped_total ∧
        cfg.webhook_dedup_ratio_threshold ≤
          dedupRatio c.webhook_accepted_total c.webhook_deduped_total)) ∧
    (∀ streak cycleErrors : Nat, cycleErrors ≠ 0 →
      updateErrorStreak streak cycleErrors = streak + 1) ∧
    (∀ streak : Nat, updateErrorStreak streak 0 = 0) := by
  refine ⟨?_, ?_, ?_, ?_, ?_⟩
  · by_cases h : c.webhook_accepted_total + c.webhook_deduped_total = 0
    · simp [dedupRatio, h]
    · have hpos : 0 < c.webhook_accepted_total + c.webhook_deduped_total :=
        Nat.pos_of_ne_zero h
      simp [dedupRatio, h, hpos]
  · simp [buildChatlogHealthSignals]
  · simp [buildChatlogHealthSignals]
  · intro streak cycleErrors h
    simp [updateErrorStreak, Nat.pos_of_ne_zero h]
  · intro streak
    simp [updateErrorStreak]

/-- Witness for C9 at concrete counters and thresholds. -/
theorem chatlog_health_signals_spec_witness :
    (dedupRatio 2 18 = if 2 + 18 = 0 then 0 else ((18 : ℚ) / ((2 : ℚ) + (18 : ℚ)))) ∧
    ((buildChatlogHealthSignals ⟨3, 10, (8 : ℚ) / 10⟩ ⟨2, 18, 4⟩).backfill_error_alert = true ↔
      3 ≤ 4) ∧
    ((buildChatlogHealthSignals ⟨3, 10, (8 : ℚ) / 10⟩ ⟨2, 18, 4⟩).webhook_dedup_alert = true ↔
      (10 ≤ 2 + 18 ∧ (8 : ℚ) / 10 ≤ dedupRatio 2 18)) ∧
    updateErrorStreak 2 5 = 2 + 1 ∧
    updateErrorStreak 7 0 = 0 := by
  exact ⟨(chatlog_health_signals_spec ⟨3, 10, (8 : ℚ) / 10⟩ ⟨2, 18, 4⟩).1,
    (chatlog_health_signals_spec ⟨3, 10, (8 : ℚ) / 10⟩ ⟨2, 18, 4⟩).2.1,
    (chatlog_health_signals_spec ⟨3, 10, (8 : ℚ) / 10⟩ ⟨2, 18, 4⟩).2.2.1,
    (chatlog_health_signals_spec ⟨3, 10, (8 : ℚ) / 10⟩ ⟨2, 18, 4⟩).2.2.2.1 2 5 (by decide),
    (chatlog_health_signals_spec ⟨3, 10, (8 : ℚ) / 10⟩ ⟨2, 18, 4⟩).2.2.2.2 7⟩
